import Mathlib

/-!
# Verification of the tslox interpreter (scanner, parser, resolver, evaluator)

This file gives a shallow embedding, in Lean 4, of the final snapshots of the
tslox sources: the scanner (`src/Lexer/Scanner.ts`), the token data model
(`src/Lexer/Token.ts`), the recursive-descent parser (`src/Parser/Parser.ts`),
the static resolver (`src/Interpreter/Resolver.ts`) and the tree-walk
evaluator (`src/Interpreter/Interpreter.ts` together with
`src/Interpreter/LoxFunction.ts`, `src/Interpreter/LoxInstance.ts` and
`src/Interpreter/Environment.ts`).

Modelling conventions, stated once here:

* Source text is a `List Char`; `String.prototype.charAt`, `substring` and
  `length` become list operations.  TypeScript `Map` objects become
  association lists whose `set` replaces the first binding of the key
  (`listSet` below), which is observationally the same for `get`/`has`.
* Lox numbers are IEEE-754 doubles in the source; they are embedded as `Rat`.
  No claim verified here depends on rounding, `NaN`, infinities or the sign
  of zero, and where the source tests `=== 0` or `!= 0` the embedded test is
  equality with `(0 : Rat)`.
* JavaScript exceptions (`ParseError`, `RuntimeError`, `ReturnError`) become
  explicit outcome types; a `try`/`finally` becomes a `match` that performs
  the finaliser on every branch.
* The interpreter's mutable environment tree lives in an explicit store:
  a `LoxState` holds a list of frames addressed by position, the address of
  the current environment, and the address of the globals frame.
* The resolver side-table (`Interpreter.locals`, a `Map` keyed by AST-node
  identity) is embedded by annotating the four use-site expression forms
  (`Variable`, `Assign`, `This`, `Super`) with an `Option Nat` slot that the
  resolver fills in; the design notes of the specification sanction stable
  node handles for exactly this purpose.
* Loops are embedded as recursion.  Where the source loop's termination is a
  property to be proved rather than assumed (the scanner's main loop and its
  sub-loops, the parser, the evaluator), the recursion is driven by an
  explicit gas/fuel parameter so that every definition is structurally
  recursive and computable by the kernel; sufficiency of the gas is then a
  theorem, not an assumption.
-/

set_option maxHeartbeats 1000000

/-! ## Token data model (`src/Lexer/Token.ts`) -/

/-- `TokenType` from `src/Lexer/Token.ts`. -/
inductive TokenType where
  | LEFT_PAREN | RIGHT_PAREN | LEFT_BRACE | RIGHT_BRACE
  | COMMA | DOT | MINUS | PLUS | SEMICOLON | SLASH | STAR
  | BANG | BANG_EQUAL
  | EQUAL | EQUAL_EQUAL
  | GREATER | GREATER_EQUAL
  | LESS | LESS_EQUAL
  | IDENTIFIER | STRING | NUMBER | INLINE_COMMENT | BLOCK_COMMENT
  | AND | CLASS | ELSE | FALSE | FUN | FOR | IF | NIL | OR
  | PRINT | RETURN | SUPER | THIS | TRUE | VAR | WHILE
  | EOF
deriving DecidableEq, Repr

/-- Literal payload carried by a token (`literal: unknown` in the source:
`null`, a number, or a string). -/
inductive Prim where
  | nil
  | bool (b : Bool)
  | num (q : Rat)
  | str (s : List Char)
deriving DecidableEq, Repr

/-- `Token` from `src/Lexer/Token.ts`: type, lexeme, literal, line, column. -/
structure Token where
  type : TokenType
  lexeme : List Char
  literal : Prim
  line : Nat
  column : Nat
deriving DecidableEq, Repr

/-- `TokenKeywordMap` from `src/Lexer/Token.ts`, as an association list. -/
def TokenKeywordMap : List (List Char × TokenType) :=
  [ ("and".data, .AND), ("class".data, .CLASS), ("else".data, .ELSE),
    ("false".data, .FALSE), ("for".data, .FOR), ("fun".data, .FUN),
    ("if".data, .IF), ("nil".data, .NIL), ("or".data, .OR),
    ("print".data, .PRINT), ("return".data, .RETURN), ("super".data, .SUPER),
    ("this".data, .THIS), ("true".data, .TRUE), ("var".data, .VAR),
    ("while".data, .WHILE) ]

/-- First-match lookup in an association list (TypeScript object / `Map` read). -/
def listGet {α : Type} [DecidableEq α] {β : Type} : List (α × β) → α → Option β
  | [], _ => none
  | (k, v) :: rest, key => if k = key then some v else listGet rest key

/-- `Map.prototype.set`: replace the first binding of the key, or append it. -/
def listSet {α : Type} [DecidableEq α] {β : Type} : List (α × β) → α → β → List (α × β)
  | [], key, v => [(key, v)]
  | (k, w) :: rest, key, v =>
      if k = key then (key, v) :: rest else (k, w) :: listSet rest key v

/-! ## Scanner (`src/Lexer/Scanner.ts`, final snapshot with column tracking) -/

/-- A reported scan error: line, column, message (`reportError` in `Lox.ts`
appends to the error channel and sets the `hadError` flag; the embedded
scanner collects the reports in a list, so "no error" is "empty list"). -/
structure ScanErr where
  line : Nat
  column : Nat
  message : String
deriving DecidableEq, Repr

/-- The scanner's mutable fields (`start`, `current`, `column`, `line`,
`tokens`), plus the collected error reports.  The source string is passed
separately since it never changes. -/
structure ScanSt where
  start : Nat
  current : Nat
  column : Nat
  line : Nat
  tokens : List Token
  errors : List ScanErr
deriving DecidableEq, Repr

/-- `substring(a, b)`: the characters of positions `[a, b)`. -/
def listSub (src : List Char) (a b : Nat) : List Char :=
  (src.drop a).take (b - a)

/-- `isAtEnd()`. -/
def scIsAtEnd (src : List Char) (st : ScanSt) : Bool :=
  src.length ≤ st.current

/-- `charAt` with the `'\x00'` fallback the scanner's `peek` uses. -/
def charAt (src : List Char) (i : Nat) : Char :=
  src.getD i '\x00'

/-- `advance()`: return the current character and bump `current`. -/
def scAdvance (src : List Char) (st : ScanSt) : Char × ScanSt :=
  (charAt src st.current, { st with current := st.current + 1 })

/-- `peek()`. -/
def scPeek (src : List Char) (st : ScanSt) : Char :=
  if scIsAtEnd src st then '\x00' else charAt src st.current

/-- `peekNext()`. -/
def scPeekNext (src : List Char) (st : ScanSt) : Char :=
  if src.length ≤ st.current + 1 then '\x00' else charAt src (st.current + 1)

/-- `match(expected)`. -/
def scMatch (src : List Char) (st : ScanSt) (expected : Char) : Bool × ScanSt :=
  if scIsAtEnd src st then (false, st)
  else if charAt src st.current ≠ expected then (false, st)
  else (true, { st with current := st.current + 1 })

/-- `incrementLine()`. -/
def scIncrementLine (st : ScanSt) : ScanSt :=
  { st with line := st.line + 1, column := 0 }

/-- `addToken(type, literal)`: lexeme is `substring(start, current)`. -/
def scAddToken (src : List Char) (st : ScanSt) (ty : TokenType) (literal : Prim) : ScanSt :=
  { st with tokens :=
      st.tokens ++ [⟨ty, listSub src st.start st.current, literal, st.line, st.column⟩] }

/-- `reportError(line, column, message)` as seen from the scanner. -/
def scReport (st : ScanSt) (line column : Nat) (message : String) : ScanSt :=
  { st with errors := st.errors ++ [⟨line, column, message⟩] }

/-- `isDigit(c)`. -/
def isDigitChar (c : Char) : Bool :=
  48 ≤ c.toNat ∧ c.toNat ≤ 57

/-- `isAlpha(c)`. -/
def isAlphaChar (c : Char) : Bool :=
  (97 ≤ c.toNat ∧ c.toNat ≤ 122) ∨ (65 ≤ c.toNat ∧ c.toNat ≤ 90) ∨ c.toNat = 95

/-- `isAlphaNumeric(c)`. -/
def isAlphaNumericChar (c : Char) : Bool :=
  isAlphaChar c || isDigitChar c

/-- Gas-driven `while` combinator for the scanner's inner loops.  `body`
returns `(true, st)` to continue looping and `(false, st)` to `break`.
The scanner supplies `src.length` gas everywhere, which is sufficient
because every body consumes at least one character. -/
def scWhile (cond : ScanSt → Bool) (body : ScanSt → Bool × ScanSt) : Nat → ScanSt → ScanSt
  | 0, st => st
  | gas + 1, st =>
      if cond st then
        let (k, st1) := body st
        if k then scWhile cond body gas st1 else st1
      else st

/-- The body loop of `scanString`: advance past characters until the closing
quote or end of input, bumping `line` at embedded newlines. -/
def scanStringLoop (src : List Char) : Nat → ScanSt → ScanSt :=
  scWhile (fun st => scPeek src st ≠ '\"' ∧ ¬ scIsAtEnd src st)
    (fun st =>
      (true, (scAdvance src (if scPeek src st = '\n' then scIncrementLine st else st)).2))

/-- `scanString()`. -/
def scanString (src : List Char) (st : ScanSt) : ScanSt :=
  let st1 := scanStringLoop src src.length st
  if scIsAtEnd src st1 then
    scReport st1 st1.line st1.column "Unterminated string"
  else
    let st2 := (scAdvance src st1).2
    scAddToken src st2 .STRING (.str (listSub src (st2.start + 1) (st2.current - 1)))

/-- A digit run: `while (this.isDigit(this.peek())) this.advance();`. -/
def scanDigitsLoop (src : List Char) : Nat → ScanSt → ScanSt :=
  scWhile (fun st => isDigitChar (scPeek src st))
    (fun st => (true, (scAdvance src st).2))

/-- `parseFloat` on the scanned shape `digits [. digits]`, as a rational.
Characters that are not digits or the first dot are ignored, which on the
shapes the scanner produces agrees with `parseFloat` (up to the double
rounding that the `Rat` embedding deliberately ignores). -/
def parseDec (s : List Char) : Rat :=
  let intPart := s.takeWhile (fun c => isDigitChar c)
  let rest := s.drop intPart.length
  let fracPart := (rest.drop 1).takeWhile (fun c => isDigitChar c)
  let digitsVal : List Char → Nat := fun l =>
    l.foldl (fun acc c => acc * 10 + (c.toNat - 48)) 0
  (digitsVal intPart : Rat) + (digitsVal fracPart : Rat) / ((10 : Rat) ^ fracPart.length)

/-- `scanNumber()`. -/
def scanNumber (src : List Char) (st : ScanSt) : ScanSt :=
  let st1 := scanDigitsLoop src src.length st
  let st2 :=
    if scPeek src st1 = '.' ∧ isDigitChar (scPeekNext src st1) then
      scanDigitsLoop src src.length (scAdvance src st1).2
    else st1
  scAddToken src st2 .NUMBER (.num (parseDec (listSub src st2.start st2.current)))

/-- `while (this.isAlphaNumeric(this.peek())) this.advance();` -/
def scanIdentLoop (src : List Char) : Nat → ScanSt → ScanSt :=
  scWhile (fun st => isAlphaNumericChar (scPeek src st))
    (fun st => (true, (scAdvance src st).2))

/-- `scanIdentifier()`: consume the alphanumeric run, then look the text up
in `TokenKeywordMap` — after lowercasing it, exactly as the source does
(`TokenKeywordMap[text.toLowerCase()]`); a missed lookup falls back to
`IDENTIFIER`. -/
def scanIdentifier (src : List Char) (st : ScanSt) : ScanSt :=
  let st1 := scanIdentLoop src src.length st
  let text := listSub src st1.start st1.current
  let ty := (listGet TokenKeywordMap (text.map Char.toLower)).getD .IDENTIFIER
  scAddToken src st1 ty .nil

/-- The loop of `scanInlineComment`. -/
def scanInlineLoop (src : List Char) : Nat → ScanSt → ScanSt :=
  scWhile (fun st => scPeek src st ≠ '\n' ∧ ¬ scIsAtEnd src st)
    (fun st => (true, (scAdvance src st).2))

/-- `scanInlineComment()`. -/
def scanInlineComment (src : List Char) (st : ScanSt) : ScanSt :=
  let st1 := scanInlineLoop src src.length st
  scAddToken src st1 .INLINE_COMMENT (.str (listSub src st1.start st1.current))

/-- The loop of `scanBlockComment`: advance until `*/` (consumed) or end. -/
def scanBlockLoop (src : List Char) : Nat → ScanSt → ScanSt :=
  scWhile (fun st => ¬ scIsAtEnd src st)
    (fun st =>
      if scPeek src st = '*' ∧ scPeekNext src st = '/' then
        (false, (scAdvance src (scAdvance src st).2).2)
      else (true, (scAdvance src st).2))

/-- `scanBlockComment()`. -/
def scanBlockComment (src : List Char) (st : ScanSt) : ScanSt :=
  let st1 := scanBlockLoop src src.length st
  scAddToken src st1 .BLOCK_COMMENT (.str (listSub src st1.start st1.current))

/-- `scanToken()`: the big dispatch on the consumed character. -/
def scanToken (src : List Char) (st : ScanSt) : ScanSt :=
  let c := (scAdvance src st).1
  let st1 := (scAdvance src st).2
  if c = ' ' ∨ c = '\r' ∨ c = '\t' then st1
  else if c = '\n' then scIncrementLine st1
  else if c = '(' then scAddToken src st1 .LEFT_PAREN .nil
  else if c = ')' then scAddToken src st1 .RIGHT_PAREN .nil
  else if c = '{' then scAddToken src st1 .LEFT_BRACE .nil
  else if c = '}' then scAddToken src st1 .RIGHT_BRACE .nil
  else if c = ',' then scAddToken src st1 .COMMA .nil
  else if c = '.' then scAddToken src st1 .DOT .nil
  else if c = '-' then scAddToken src st1 .MINUS .nil
  else if c = '+' then scAddToken src st1 .PLUS .nil
  else if c = ';' then scAddToken src st1 .SEMICOLON .nil
  else if c = '*' then scAddToken src st1 .STAR .nil
  else if c = '!' then
    scAddToken src (scMatch src st1 '=').2
      (if (scMatch src st1 '=').1 then .BANG_EQUAL else .BANG) .nil
  else if c = '=' then
    scAddToken src (scMatch src st1 '=').2
      (if (scMatch src st1 '=').1 then .EQUAL_EQUAL else .EQUAL) .nil
  else if c = '<' then
    scAddToken src (scMatch src st1 '=').2
      (if (scMatch src st1 '=').1 then .LESS_EQUAL else .LESS) .nil
  else if c = '>' then
    scAddToken src (scMatch src st1 '=').2
      (if (scMatch src st1 '=').1 then .GREATER_EQUAL else .GREATER) .nil
  else if c = '/' then
    if (scMatch src st1 '/').1 then scanInlineComment src (scMatch src st1 '/').2
    else
      if (scMatch src (scMatch src st1 '/').2 '*').1 then
        scanBlockComment src (scMatch src (scMatch src st1 '/').2 '*').2
      else scAddToken src (scMatch src (scMatch src st1 '/').2 '*').2 .SLASH .nil
  else if c = '\"' then scanString src st1
  else if isDigitChar c then scanNumber src st1
  else if isAlphaChar c then scanIdentifier src st1
  else scReport st1 st1.line st1.column ("Unexpected character: " ++ String.mk [c])

/-- The `while (!this.isAtEnd())` loop of `scanTokens`: shift `column` by the
previous lexeme's width, set `start := current`, scan one token.  Gas-driven;
`scanTokens` supplies `src.length` gas, and sufficiency is proved below
(every `scanToken` consumes at least one character). -/
def scStartLex (st : ScanSt) : ScanSt :=
  { st with column := st.column + (st.current - st.start), start := st.current }

def scanLoop (src : List Char) : Nat → ScanSt → ScanSt
  | 0, st => st
  | gas + 1, st =>
      if ¬ scIsAtEnd src st then
        scanLoop src gas (scanToken src (scStartLex st))
      else st

/-- `scanTokens()`: run the loop from the initial state (`column` starts at
1), then push the trailing `EOF` token. -/
def scanTokens (src : List Char) : ScanSt :=
  let st := scanLoop src src.length ⟨0, 0, 1, 1, [], []⟩
  { st with tokens := st.tokens ++ [⟨.EOF, [], .nil, st.line, st.column⟩] }

/-! ### Scanner lemmas -/

/-- The whitespace characters `scanToken` skips without emitting a token. -/
def wsChars : List Char := [' ', '\r', '\t', '\n']

/-- Outcome shape: `scanToken` (or a sub-scan) appended exactly one token
whose lexeme is `substring(start, current)` of the final state. -/
def TokOut (src : List Char) (st st2 : ScanSt) : Prop :=
  ∃ t, st2.tokens = st.tokens ++ [t] ∧ st2.errors = st.errors ∧
    t.lexeme = listSub src st.start st2.current ∧ t.type ≠ .EOF

/-- Outcome shape: a scan error was reported and no token emitted. -/
def ErrOut (st st2 : ScanSt) : Prop :=
  st2.tokens = st.tokens ∧ ∃ e, st2.errors = st.errors ++ [e]

/-- Outcome shape: a single whitespace/newline character was skipped. -/
def WsOut (src : List Char) (st st2 : ScanSt) : Prop :=
  st2.tokens = st.tokens ∧ st2.errors = st.errors ∧
    st2.current = st.current + 1 ∧ charAt src st.current ∈ wsChars

lemma scWhile_fields (cond : ScanSt → Bool) (body : ScanSt → Bool × ScanSt)
    (H : ∀ st, cond st = true →
      (body st).2.start = st.start ∧ (body st).2.tokens = st.tokens ∧
      (body st).2.errors = st.errors ∧ st.current ≤ (body st).2.current) :
    ∀ gas st, (scWhile cond body gas st).start = st.start ∧
      (scWhile cond body gas st).tokens = st.tokens ∧
      (scWhile cond body gas st).errors = st.errors ∧
      st.current ≤ (scWhile cond body gas st).current := by
  intro gas
  induction gas with
  | zero => intro st; exact ⟨rfl, rfl, rfl, le_refl _⟩
  | succ g ih =>
    intro st
    by_cases h : cond st = true
    · have hb := H st h
      by_cases hk : (body st).1 = true
      · have hr := ih (body st).2
        simp only [scWhile, h, hk, if_true]
        exact ⟨hb.1 ▸ hr.1, hb.2.1 ▸ hr.2.1, hb.2.2.1 ▸ hr.2.2.1,
          le_trans hb.2.2.2 hr.2.2.2⟩
      · simp only [scWhile, h, hk, if_true, if_false]
        exact hb
    · simp only [scWhile, h, if_false]
      exact ⟨rfl, rfl, rfl, le_refl _⟩

lemma scanStringLoop_fields (src : List Char) (gas : Nat) (st : ScanSt) :
    (scanStringLoop src gas st).start = st.start ∧
    (scanStringLoop src gas st).tokens = st.tokens ∧
    (scanStringLoop src gas st).errors = st.errors ∧
    st.current ≤ (scanStringLoop src gas st).current := by
  refine scWhile_fields _ _ ?_ gas st
  intro s _
  by_cases h2 : scPeek src s = '\n' <;>
    simp [scAdvance, scIncrementLine, h2, Nat.le_succ]

lemma scanDigitsLoop_fields (src : List Char) (gas : Nat) (st : ScanSt) :
    (scanDigitsLoop src gas st).start = st.start ∧
    (scanDigitsLoop src gas st).tokens = st.tokens ∧
    (scanDigitsLoop src gas st).errors = st.errors ∧
    st.current ≤ (scanDigitsLoop src gas st).current := by
  refine scWhile_fields _ _ ?_ gas st
  intro s _
  simp [scAdvance, Nat.le_succ]

lemma scanIdentLoop_fields (src : List Char) (gas : Nat) (st : ScanSt) :
    (scanIdentLoop src gas st).start = st.start ∧
    (scanIdentLoop src gas st).tokens = st.tokens ∧
    (scanIdentLoop src gas st).errors = st.errors ∧
    st.current ≤ (scanIdentLoop src gas st).current := by
  refine scWhile_fields _ _ ?_ gas st
  intro s _
  simp [scAdvance, Nat.le_succ]

lemma scanInlineLoop_fields (src : List Char) (gas : Nat) (st : ScanSt) :
    (scanInlineLoop src gas st).start = st.start ∧
    (scanInlineLoop src gas st).tokens = st.tokens ∧
    (scanInlineLoop src gas st).errors = st.errors ∧
    st.current ≤ (scanInlineLoop src gas st).current := by
  refine scWhile_fields _ _ ?_ gas st
  intro s _
  simp [scAdvance, Nat.le_succ]

lemma scanBlockLoop_fields (src : List Char) (gas : Nat) (st : ScanSt) :
    (scanBlockLoop src gas st).start = st.start ∧
    (scanBlockLoop src gas st).tokens = st.tokens ∧
    (scanBlockLoop src gas st).errors = st.errors ∧
    st.current ≤ (scanBlockLoop src gas st).current := by
  refine scWhile_fields _ _ ?_ gas st
  intro s _
  by_cases h2 : scPeek src s = '*' ∧ scPeekNext src s = '/'
  · simp [scAdvance, h2]
    omega
  · simp [scAdvance, h2, Nat.le_succ]

lemma scMatch_fields (src : List Char) (st : ScanSt) (c : Char) :
    (scMatch src st c).2.start = st.start ∧
    (scMatch src st c).2.tokens = st.tokens ∧
    (scMatch src st c).2.errors = st.errors ∧
    st.current ≤ (scMatch src st c).2.current := by
  unfold scMatch
  split_ifs <;> simp [Nat.le_succ]

lemma scAddToken_spec (src : List Char) (st : ScanSt) (ty : TokenType) (lit : Prim)
    (hty : ty ≠ .EOF) :
    TokOut src st (scAddToken src st ty lit) ∧
    (scAddToken src st ty lit).start = st.start ∧
    (scAddToken src st ty lit).current = st.current := by
  refine ⟨⟨⟨ty, listSub src st.start st.current, lit, st.line, st.column⟩, ?_, rfl, rfl, hty⟩,
    rfl, rfl⟩
  simp [scAddToken]


@[simp] lemma scAdvance_start (src : List Char) (st : ScanSt) :
    (scAdvance src st).2.start = st.start := rfl
@[simp] lemma scAdvance_current (src : List Char) (st : ScanSt) :
    (scAdvance src st).2.current = st.current + 1 := rfl
@[simp] lemma scAdvance_tokens (src : List Char) (st : ScanSt) :
    (scAdvance src st).2.tokens = st.tokens := rfl
@[simp] lemma scAdvance_errors (src : List Char) (st : ScanSt) :
    (scAdvance src st).2.errors = st.errors := rfl
@[simp] lemma scAddToken_start (src : List Char) (st : ScanSt) (ty : TokenType) (lit : Prim) :
    (scAddToken src st ty lit).start = st.start := rfl
@[simp] lemma scAddToken_current (src : List Char) (st : ScanSt) (ty : TokenType) (lit : Prim) :
    (scAddToken src st ty lit).current = st.current := rfl
@[simp] lemma scAddToken_errors (src : List Char) (st : ScanSt) (ty : TokenType) (lit : Prim) :
    (scAddToken src st ty lit).errors = st.errors := rfl
@[simp] lemma scAddToken_tokens (src : List Char) (st : ScanSt) (ty : TokenType) (lit : Prim) :
    (scAddToken src st ty lit).tokens =
      st.tokens ++ [⟨ty, listSub src st.start st.current, lit, st.line, st.column⟩] := rfl
@[simp] lemma scReport_start (st : ScanSt) (l c : Nat) (m : String) :
    (scReport st l c m).start = st.start := rfl
@[simp] lemma scReport_current (st : ScanSt) (l c : Nat) (m : String) :
    (scReport st l c m).current = st.current := rfl
@[simp] lemma scReport_tokens (st : ScanSt) (l c : Nat) (m : String) :
    (scReport st l c m).tokens = st.tokens := rfl
@[simp] lemma scReport_errors (st : ScanSt) (l c : Nat) (m : String) :
    (scReport st l c m).errors = st.errors ++ [⟨l, c, m⟩] := rfl
@[simp] lemma scIncrementLine_start (st : ScanSt) :
    (scIncrementLine st).start = st.start := rfl
@[simp] lemma scIncrementLine_current (st : ScanSt) :
    (scIncrementLine st).current = st.current := rfl
@[simp] lemma scIncrementLine_tokens (st : ScanSt) :
    (scIncrementLine st).tokens = st.tokens := rfl
@[simp] lemma scIncrementLine_errors (st : ScanSt) :
    (scIncrementLine st).errors = st.errors := rfl

lemma scanString_spec (src : List Char) (st : ScanSt) :
    (scanString src st).start = st.start ∧
    st.current ≤ (scanString src st).current ∧
    (TokOut src st (scanString src st) ∨ ErrOut st (scanString src st)) := by
  obtain ⟨f1, f2, f3, f4⟩ := scanStringLoop_fields src src.length st
  unfold scanString
  set L := scanStringLoop src src.length st with hL
  by_cases h : scIsAtEnd src L = true
  · simp only [h, if_true]
    exact ⟨by simp [f1], by simpa using f4,
      Or.inr ⟨by simp [f2], ⟨⟨L.line, L.column, "Unterminated string"⟩, by simp [f3]⟩⟩⟩
  · simp only [h, Bool.false_eq_true, if_false]
    refine ⟨by simp [f1], by simp; omega, Or.inl ?_⟩
    refine ⟨⟨.STRING, listSub src L.start (L.current + 1),
      .str (listSub src (L.start + 1) (L.current + 1 - 1)), L.line, L.column⟩,
      ?_, ?_, ?_, by simp⟩
    · simp [f2, scAdvance]
    · simp [f3]
    · simp [f1]

lemma scanNumber_spec (src : List Char) (st : ScanSt) :
    (scanNumber src st).start = st.start ∧
    st.current ≤ (scanNumber src st).current ∧
    TokOut src st (scanNumber src st) := by
  obtain ⟨f1, f2, f3, f4⟩ := scanDigitsLoop_fields src src.length st
  unfold scanNumber
  set L := scanDigitsLoop src src.length st with hL
  by_cases h : scPeek src L = '.' ∧ isDigitChar (scPeekNext src L) = true
  · simp only [h, and_self, if_true]
    obtain ⟨g1, g2, g3, g4⟩ := scanDigitsLoop_fields src src.length (scAdvance src L).2
    set M := scanDigitsLoop src src.length (scAdvance src L).2 with hM
    simp only [scAdvance_start, scAdvance_current, scAdvance_tokens, scAdvance_errors] at g1 g2 g3 g4
    refine ⟨by simp [g1, f1], by simp [g4]; omega, ?_⟩
    refine ⟨⟨.NUMBER, listSub src M.start M.current,
      .num (parseDec (listSub src M.start M.current)), M.line, M.column⟩,
      ?_, ?_, ?_, by simp⟩
    · simp [g2, f2, scAdvance]
    · simp [g3, f3]
    · simp [g1, f1]
  · simp only [if_neg h]
    refine ⟨by simp [f1], by simp; omega, ?_⟩
    refine ⟨⟨.NUMBER, listSub src L.start L.current,
      .num (parseDec (listSub src L.start L.current)), L.line, L.column⟩,
      ?_, ?_, ?_, by simp⟩
    · simp [f2]
    · simp [f3]
    · simp [f1]

lemma listGet_mem {α : Type} [DecidableEq α] {β : Type} :
    ∀ (l : List (α × β)) (k : α) (v : β), listGet l k = some v → (k, v) ∈ l := by
  intro l
  induction l with
  | nil => intro k v h; simp [listGet] at h
  | cons p rest ih =>
    intro k v h
    by_cases hk : p.1 = k
    · simp only [listGet, hk, if_true] at h
      injection h with h2
      subst h2
      subst hk
      exact List.mem_cons_self _ _
    · simp only [listGet, hk, if_false] at h
      exact List.mem_cons_of_mem _ (ih k v h)

lemma keyword_ne_eof (l : List Char) :
    (listGet TokenKeywordMap l).getD .IDENTIFIER ≠ .EOF := by
  cases h : listGet TokenKeywordMap l with
  | none => simp
  | some k =>
    have hk : k ∈ TokenKeywordMap.map Prod.snd :=
      List.mem_map_of_mem Prod.snd (listGet_mem _ _ _ h)
    simp only [Option.getD_some]
    fin_cases hk <;> decide

lemma scanIdentifier_spec (src : List Char) (st : ScanSt) :
    (scanIdentifier src st).start = st.start ∧
    st.current ≤ (scanIdentifier src st).current ∧
    ∃ t, (scanIdentifier src st).tokens = st.tokens ++ [t] ∧
      (scanIdentifier src st).errors = st.errors ∧
      t.lexeme = listSub src st.start (scanIdentifier src st).current ∧
      t.type = (listGet TokenKeywordMap (t.lexeme.map Char.toLower)).getD .IDENTIFIER := by
  obtain ⟨f1, f2, f3, f4⟩ := scanIdentLoop_fields src src.length st
  unfold scanIdentifier
  set L := scanIdentLoop src src.length st with hL
  refine ⟨by simp [f1], by simp [f4], ?_⟩
  refine ⟨⟨(listGet TokenKeywordMap ((listSub src L.start L.current).map Char.toLower)).getD
      .IDENTIFIER, listSub src L.start L.current, .nil, L.line, L.column⟩,
    ?_, ?_, ?_, ?_⟩
  · simp [f2]
  · simp [f3]
  · simp [f1]
  · rfl

lemma scanInlineComment_spec (src : List Char) (st : ScanSt) :
    (scanInlineComment src st).start = st.start ∧
    st.current ≤ (scanInlineComment src st).current ∧
    TokOut src st (scanInlineComment src st) := by
  obtain ⟨f1, f2, f3, f4⟩ := scanInlineLoop_fields src src.length st
  unfold scanInlineComment
  set L := scanInlineLoop src src.length st with hL
  refine ⟨by simp [f1], by simp [f4], ?_⟩
  refine ⟨⟨.INLINE_COMMENT, listSub src L.start L.current,
    .str (listSub src L.start L.current), L.line, L.column⟩, ?_, ?_, ?_, by simp⟩
  · simp [f2]
  · simp [f3]
  · simp [f1]

lemma scanBlockComment_spec (src : List Char) (st : ScanSt) :
    (scanBlockComment src st).start = st.start ∧
    st.current ≤ (scanBlockComment src st).current ∧
    TokOut src st (scanBlockComment src st) := by
  obtain ⟨f1, f2, f3, f4⟩ := scanBlockLoop_fields src src.length st
  unfold scanBlockComment
  set L := scanBlockLoop src src.length st with hL
  refine ⟨by simp [f1], by simp [f4], ?_⟩
  refine ⟨⟨.BLOCK_COMMENT, listSub src L.start L.current,
    .str (listSub src L.start L.current), L.line, L.column⟩, ?_, ?_, ?_, by simp⟩
  · simp [f2]
  · simp [f3]
  · simp [f1]

@[simp] lemma scAdvance_line (src : List Char) (st : ScanSt) :
    (scAdvance src st).2.line = st.line := rfl
@[simp] lemma scAdvance_column (src : List Char) (st : ScanSt) :
    (scAdvance src st).2.column = st.column := rfl

lemma TokOut_trans {src : List Char} {st1 st st2 : ScanSt}
    (h1 : st1.tokens = st.tokens) (h2 : st1.errors = st.errors)
    (h3 : st1.start = st.start) :
    TokOut src st1 st2 → TokOut src st st2 := by
  rintro ⟨t, ht, he, hl, hty⟩
  exact ⟨t, h1 ▸ ht, h2 ▸ he, h3 ▸ hl, hty⟩

lemma ErrOut_trans {st1 st st2 : ScanSt}
    (h1 : st1.tokens = st.tokens) (h2 : st1.errors = st.errors) :
    ErrOut st1 st2 → ErrOut st st2 := by
  rintro ⟨ht, e, he⟩
  exact ⟨h1 ▸ ht, e, h2 ▸ he⟩

lemma scanToken_cases (src : List Char) (st : ScanSt) :
    (scanToken src st).start = st.start ∧ st.current < (scanToken src st).current ∧
    (TokOut src st (scanToken src st) ∨ WsOut src st (scanToken src st) ∨
      ErrOut st (scanToken src st)) := by
  have hchar : (scAdvance src st).1 = charAt src st.current := rfl
  simp only [scanToken]
  by_cases h1 : (scAdvance src st).1 = ' ' ∨ (scAdvance src st).1 = '\r' ∨
      (scAdvance src st).1 = '\t'
  · rw [if_pos h1]
    refine ⟨by simp, by simp, Or.inr (Or.inl ⟨by simp, by simp, by simp, ?_⟩)⟩
    rw [← hchar]
    rcases h1 with h1 | h1 | h1 <;> rw [h1] <;> decide
  rw [if_neg h1]
  by_cases h2 : (scAdvance src st).1 = '\n'
  · rw [if_pos h2]
    refine ⟨by simp, by simp, Or.inr (Or.inl ⟨by simp, by simp, by simp, ?_⟩)⟩
    rw [← hchar, h2]
    decide
  rw [if_neg h2]
  by_cases h3 : (scAdvance src st).1 = '('
  · rw [if_pos h3]
    exact ⟨by simp, by simp, Or.inl ⟨⟨.LEFT_PAREN, listSub src st.start (st.current + 1),
      .nil, st.line, st.column⟩, by simp, by simp, by simp, by simp⟩⟩
  rw [if_neg h3]
  by_cases h4 : (scAdvance src st).1 = ')'
  · rw [if_pos h4]
    exact ⟨by simp, by simp, Or.inl ⟨⟨.RIGHT_PAREN, listSub src st.start (st.current + 1),
      .nil, st.line, st.column⟩, by simp, by simp, by simp, by simp⟩⟩
  rw [if_neg h4]
  by_cases h5 : (scAdvance src st).1 = '{'
  · rw [if_pos h5]
    exact ⟨by simp, by simp, Or.inl ⟨⟨.LEFT_BRACE, listSub src st.start (st.current + 1),
      .nil, st.line, st.column⟩, by simp, by simp, by simp, by simp⟩⟩
  rw [if_neg h5]
  by_cases h6 : (scAdvance src st).1 = '}'
  · rw [if_pos h6]
    exact ⟨by simp, by simp, Or.inl ⟨⟨.RIGHT_BRACE, listSub src st.start (st.current + 1),
      .nil, st.line, st.column⟩, by simp, by simp, by simp, by simp⟩⟩
  rw [if_neg h6]
  by_cases h7 : (scAdvance src st).1 = ','
  · rw [if_pos h7]
    exact ⟨by simp, by simp, Or.inl ⟨⟨.COMMA, listSub src st.start (st.current + 1),
      .nil, st.line, st.column⟩, by simp, by simp, by simp, by simp⟩⟩
  rw [if_neg h7]
  by_cases h8 : (scAdvance src st).1 = '.'
  · rw [if_pos h8]
    exact ⟨by simp, by simp, Or.inl ⟨⟨.DOT, listSub src st.start (st.current + 1),
      .nil, st.line, st.column⟩, by simp, by simp, by simp, by simp⟩⟩
  rw [if_neg h8]
  by_cases h9 : (scAdvance src st).1 = '-'
  · rw [if_pos h9]
    exact ⟨by simp, by simp, Or.inl ⟨⟨.MINUS, listSub src st.start (st.current + 1),
      .nil, st.line, st.column⟩, by simp, by simp, by simp, by simp⟩⟩
  rw [if_neg h9]
  by_cases h10 : (scAdvance src st).1 = '+'
  · rw [if_pos h10]
    exact ⟨by simp, by simp, Or.inl ⟨⟨.PLUS, listSub src st.start (st.current + 1),
      .nil, st.line, st.column⟩, by simp, by simp, by simp, by simp⟩⟩
  rw [if_neg h10]
  by_cases h11 : (scAdvance src st).1 = ';'
  · rw [if_pos h11]
    exact ⟨by simp, by simp, Or.inl ⟨⟨.SEMICOLON, listSub src st.start (st.current + 1),
      .nil, st.line, st.column⟩, by simp, by simp, by simp, by simp⟩⟩
  rw [if_neg h11]
  by_cases h12 : (scAdvance src st).1 = '*'
  · rw [if_pos h12]
    exact ⟨by simp, by simp, Or.inl ⟨⟨.STAR, listSub src st.start (st.current + 1),
      .nil, st.line, st.column⟩, by simp, by simp, by simp, by simp⟩⟩
  rw [if_neg h12]
  by_cases h13 : (scAdvance src st).1 = '!'
  · rw [if_pos h13]
    obtain ⟨m1, m2, m3, m4⟩ := scMatch_fields src (scAdvance src st).2 '='
    set M := (scMatch src (scAdvance src st).2 '=').2 with hM
    refine ⟨by simp [m1], by simp [m2]; simp at m4; omega, Or.inl
      ⟨⟨if (scMatch src (scAdvance src st).2 '=').1 then .BANG_EQUAL else .BANG,
        listSub src M.start M.current, .nil, M.line, M.column⟩,
        by simp [m2], by simp [m3], by simp [m1], ?_⟩⟩
    cases (scMatch src (scAdvance src st).2 '=').1 <;> simp
  rw [if_neg h13]
  by_cases h14 : (scAdvance src st).1 = '='
  · rw [if_pos h14]
    obtain ⟨m1, m2, m3, m4⟩ := scMatch_fields src (scAdvance src st).2 '='
    set M := (scMatch src (scAdvance src st).2 '=').2 with hM
    refine ⟨by simp [m1], by simp [m2]; simp at m4; omega, Or.inl
      ⟨⟨if (scMatch src (scAdvance src st).2 '=').1 then .EQUAL_EQUAL else .EQUAL,
        listSub src M.start M.current, .nil, M.line, M.column⟩,
        by simp [m2], by simp [m3], by simp [m1], ?_⟩⟩
    cases (scMatch src (scAdvance src st).2 '=').1 <;> simp
  rw [if_neg h14]
  by_cases h15 : (scAdvance src st).1 = '<'
  · rw [if_pos h15]
    obtain ⟨m1, m2, m3, m4⟩ := scMatch_fields src (scAdvance src st).2 '='
    set M := (scMatch src (scAdvance src st).2 '=').2 with hM
    refine ⟨by simp [m1], by simp [m2]; simp at m4; omega, Or.inl
      ⟨⟨if (scMatch src (scAdvance src st).2 '=').1 then .LESS_EQUAL else .LESS,
        listSub src M.start M.current, .nil, M.line, M.column⟩,
        by simp [m2], by simp [m3], by simp [m1], ?_⟩⟩
    cases (scMatch src (scAdvance src st).2 '=').1 <;> simp
  rw [if_neg h15]
  by_cases h16 : (scAdvance src st).1 = '>'
  · rw [if_pos h16]
    obtain ⟨m1, m2, m3, m4⟩ := scMatch_fields src (scAdvance src st).2 '='
    set M := (scMatch src (scAdvance src st).2 '=').2 with hM
    refine ⟨by simp [m1], by simp [m2]; simp at m4; omega, Or.inl
      ⟨⟨if (scMatch src (scAdvance src st).2 '=').1 then .GREATER_EQUAL else .GREATER,
        listSub src M.start M.current, .nil, M.line, M.column⟩,
        by simp [m2], by simp [m3], by simp [m1], ?_⟩⟩
    cases (scMatch src (scAdvance src st).2 '=').1 <;> simp
  rw [if_neg h16]
  by_cases h17 : (scAdvance src st).1 = '/'
  · rw [if_pos h17]
    by_cases h18 : (scMatch src (scAdvance src st).2 '/').1 = true
    · rw [if_pos h18]
      obtain ⟨m1, m2, m3, m4⟩ := scMatch_fields src (scAdvance src st).2 '/'
      obtain ⟨s1, s2, s3⟩ := scanInlineComment_spec src (scMatch src (scAdvance src st).2 '/').2
      refine ⟨by rw [s1, m1]; simp, by simp at m4; omega, Or.inl ?_⟩
      exact TokOut_trans (by rw [m2]; simp) (by rw [m3]; simp) (by rw [m1]; simp) s3
    · rw [if_neg h18]
      by_cases h19 : (scMatch src (scMatch src (scAdvance src st).2 '/').2 '*').1 = true
      · rw [if_pos h19]
        obtain ⟨m1, m2, m3, m4⟩ := scMatch_fields src (scAdvance src st).2 '/'
        obtain ⟨n1, n2, n3, n4⟩ := scMatch_fields src (scMatch src (scAdvance src st).2 '/').2 '*'
        obtain ⟨s1, s2, s3⟩ :=
          scanBlockComment_spec src (scMatch src (scMatch src (scAdvance src st).2 '/').2 '*').2
        refine ⟨by rw [s1, n1, m1]; simp, by simp at m4; omega, Or.inl ?_⟩
        exact TokOut_trans (by rw [n2, m2]; simp) (by rw [n3, m3]; simp) (by rw [n1, m1]; simp) s3
      · rw [if_neg h19]
        obtain ⟨m1, m2, m3, m4⟩ := scMatch_fields src (scAdvance src st).2 '/'
        obtain ⟨n1, n2, n3, n4⟩ := scMatch_fields src (scMatch src (scAdvance src st).2 '/').2 '*'
        set M := (scMatch src (scMatch src (scAdvance src st).2 '/').2 '*').2 with hM
        refine ⟨by simp [n1, m1], by simp at m4 n4 ⊢; omega, Or.inl
          ⟨⟨.SLASH, listSub src M.start M.current, .nil, M.line, M.column⟩,
            by simp [n2, m2], by simp [n3, m3], by simp [n1, m1], by simp⟩⟩
  rw [if_neg h17]
  by_cases h20 : (scAdvance src st).1 = '\"'
  · rw [if_pos h20]
    obtain ⟨s1, s2, s3⟩ := scanString_spec src (scAdvance src st).2
    refine ⟨by rw [s1]; simp, by simp at s2; omega, ?_⟩
    rcases s3 with s3 | s3
    · exact Or.inl (TokOut_trans (by simp) (by simp) (by simp) s3)
    · exact Or.inr (Or.inr (ErrOut_trans (by simp) (by simp) s3))
  rw [if_neg h20]
  by_cases h21 : isDigitChar (scAdvance src st).1 = true
  · rw [if_pos h21]
    obtain ⟨s1, s2, s3⟩ := scanNumber_spec src (scAdvance src st).2
    refine ⟨by rw [s1]; simp, by simp at s2; omega, ?_⟩
    exact Or.inl (TokOut_trans (by simp) (by simp) (by simp) s3)
  rw [if_neg h21]
  by_cases h22 : isAlphaChar (scAdvance src st).1 = true
  · rw [if_pos h22]
    obtain ⟨s1, s2, ⟨t, t1, t2, t3, t4⟩⟩ := scanIdentifier_spec src (scAdvance src st).2
    refine ⟨by rw [s1]; simp, by simp at s2; omega, Or.inl ?_⟩
    refine ⟨t, by rw [t1]; simp, by rw [t2]; simp, by rw [t3]; simp, ?_⟩
    rw [t4]
    exact keyword_ne_eof _
  rw [if_neg h22]
  refine ⟨by simp, by simp, Or.inr (Or.inr ⟨by simp,
    ⟨⟨st.line, st.column, "Unexpected character: " ++ String.mk [(scAdvance src st).1]⟩,
      by simp⟩⟩)⟩

/-- `src` decomposes as an in-order interleaving of the given lexemes with
individual skipped whitespace characters (space, carriage return, tab,
newline).  This is the formal reading of "concatenating the lexemes in
source order together with the skipped whitespace and newline characters
reconstructs the original source string". -/
inductive Interleaving : List Char → List (List Char) → Prop where
  | nil : Interleaving [] []
  | ws (c : Char) (rest : List Char) (ls : List (List Char)) :
      c ∈ wsChars → Interleaving rest ls → Interleaving (c :: rest) ls
  | tok (l rest : List Char) (ls : List (List Char)) :
      Interleaving rest ls → Interleaving (l ++ rest) (l :: ls)

lemma listSub_append_drop (src : List Char) (a b : Nat) (h : a ≤ b) :
    listSub src a b ++ src.drop b = src.drop a := by
  have h2 : src.drop b = (src.drop a).drop (b - a) := by
    rw [List.drop_drop]
    congr 1
    omega
  rw [listSub, h2, List.take_append_drop]


@[simp] lemma scStartLex_start (st : ScanSt) : (scStartLex st).start = st.current := rfl
@[simp] lemma scStartLex_current (st : ScanSt) : (scStartLex st).current = st.current := rfl
@[simp] lemma scStartLex_tokens (st : ScanSt) : (scStartLex st).tokens = st.tokens := rfl
@[simp] lemma scStartLex_errors (st : ScanSt) : (scStartLex st).errors = st.errors := rfl

lemma scanLoop_reaches_end (src : List Char) :
    ∀ (gas : Nat) (st : ScanSt), src.length - st.current ≤ gas →
      scIsAtEnd src (scanLoop src gas st) = true := by
  intro gas
  induction gas with
  | zero =>
    intro st h
    simp only [scanLoop, scIsAtEnd, decide_eq_true_eq]
    omega
  | succ g ih =>
    intro st h
    by_cases he : scIsAtEnd src st = true
    · rw [scanLoop, if_neg (not_not_intro he)]
      exact he
    · rw [scanLoop, if_pos he]
      apply ih
      have hp := (scanToken_cases src (scStartLex st)).2.1
      simp only [scStartLex_current] at hp
      simp only [scIsAtEnd, decide_eq_true_eq, not_le] at he
      omega

lemma scanLoop_mono (src : List Char) :
    ∀ (gas : Nat) (st : ScanSt), ∃ dt de,
      (scanLoop src gas st).tokens = st.tokens ++ dt ∧
      (scanLoop src gas st).errors = st.errors ++ de ∧
      ∀ t ∈ dt, t.type ≠ TokenType.EOF := by
  intro gas
  induction gas with
  | zero =>
    intro st
    exact ⟨[], [], by simp [scanLoop], by simp [scanLoop], by simp⟩
  | succ g ih =>
    intro st
    by_cases he : scIsAtEnd src st = true
    · rw [scanLoop, if_neg (not_not_intro he)]
      exact ⟨[], [], by simp, by simp, by simp⟩
    · rw [scanLoop, if_pos he]
      obtain ⟨-, -, hcases⟩ := scanToken_cases src (scStartLex st)
      obtain ⟨dt, de, ht, herr, heof⟩ := ih (scanToken src (scStartLex st))
      rcases hcases with ⟨t, t1, t2, -, t4⟩ | ⟨w1, w2, -, -⟩ | ⟨e1, e, e2⟩
      · rw [scStartLex_tokens] at t1
        rw [scStartLex_errors] at t2
        refine ⟨t :: dt, de, ?_, ?_, ?_⟩
        · rw [ht, t1, List.append_assoc]
          rfl
        · rw [herr, t2]
        · intro u hu
          rcases List.mem_cons.mp hu with rfl | hu
          · exact t4
          · exact heof u hu
      · rw [scStartLex_tokens] at w1
        rw [scStartLex_errors] at w2
        exact ⟨dt, de, by rw [ht, w1], by rw [herr, w2], heof⟩
      · rw [scStartLex_tokens] at e1
        rw [scStartLex_errors] at e2
        refine ⟨dt, [e] ++ de, by rw [ht, e1], ?_, heof⟩
        rw [herr, e2, List.append_assoc]

lemma scanLoop_interleave (src : List Char) :
    ∀ (gas : Nat) (st : ScanSt), src.length - st.current ≤ gas →
      (scanLoop src gas st).errors = st.errors →
      Interleaving (src.drop st.current)
        (((scanLoop src gas st).tokens.drop st.tokens.length).map Token.lexeme) := by
  intro gas
  induction gas with
  | zero =>
    intro st h _
    rw [List.drop_eq_nil_of_le (by omega : src.length ≤ st.current)]
    simp only [scanLoop, List.drop_length, List.map_nil]
    exact .nil
  | succ g ih =>
    intro st h herr
    by_cases he : scIsAtEnd src st = true
    · simp only [scIsAtEnd, decide_eq_true_eq] at he
      rw [List.drop_eq_nil_of_le he]
      rw [scanLoop, if_neg (not_not_intro (by simp [scIsAtEnd]; omega))]
      simp only [List.drop_length, List.map_nil]
      exact .nil
    · rw [scanLoop, if_pos he] at herr ⊢
      simp only [scIsAtEnd, decide_eq_true_eq, not_le] at he
      obtain ⟨-, hprog, hcases⟩ := scanToken_cases src (scStartLex st)
      rw [scStartLex_current] at hprog
      obtain ⟨dt, de, ht, herr2, -⟩ := scanLoop_mono src g (scanToken src (scStartLex st))
      rcases hcases with ⟨t, t1, t2, t3, -⟩ | ⟨w1, w2, w3, w4⟩ | ⟨e1, e, e2⟩
      · rw [scStartLex_tokens] at t1
        rw [scStartLex_errors] at t2
        rw [scStartLex_start] at t3
        have herr3 : (scanLoop src g (scanToken src (scStartLex st))).errors =
            (scanToken src (scStartLex st)).errors := by
          rw [t2]
          exact herr
        have hih := ih (scanToken src (scStartLex st)) (by omega) herr3
        have hsplit : src.drop st.current =
            t.lexeme ++ src.drop (scanToken src (scStartLex st)).current := by
          rw [t3]
          exact (listSub_append_drop src st.current (scanToken src (scStartLex st)).current
            (by omega)).symm
        have htoks : (scanLoop src g (scanToken src (scStartLex st))).tokens.drop
            st.tokens.length = t ::
            ((scanLoop src g (scanToken src (scStartLex st))).tokens.drop
              (scanToken src (scStartLex st)).tokens.length) := by
          rw [ht, t1, List.append_assoc, List.drop_left, ← List.append_assoc, List.drop_left]
          rfl
        rw [hsplit, htoks, List.map_cons]
        exact .tok _ _ _ hih
      · rw [scStartLex_tokens] at w1
        rw [scStartLex_errors] at w2
        rw [scStartLex_current] at w3
        have herr3 : (scanLoop src g (scanToken src (scStartLex st))).errors =
            (scanToken src (scStartLex st)).errors := by
          rw [w2]
          exact herr
        have hih := ih (scanToken src (scStartLex st)) (by omega) herr3
        have hsplit : src.drop st.current =
            charAt src st.current :: src.drop (scanToken src (scStartLex st)).current := by
          rw [w3, List.drop_eq_getElem_cons he]
          congr 1
          simp [charAt, List.getD, List.getElem?_eq_getElem he]
        have htoks : (scanLoop src g (scanToken src (scStartLex st))).tokens.drop
            st.tokens.length =
            (scanLoop src g (scanToken src (scStartLex st))).tokens.drop
              (scanToken src (scStartLex st)).tokens.length := by
          rw [w1]
        rw [hsplit, htoks]
        exact .ws _ _ _ w4 hih
      · exfalso
        rw [scStartLex_errors] at e2
        rw [herr2, e2] at herr
        have := congrArg List.length herr
        simp at this

/-! ### Claim theorems about the scanner -/

/-- C10: for every finite source string, scanning terminates: every
`scanToken` invocation strictly increases the `current` index by at least
one, so the scan loop — run with `src.length` gas, one unit per iteration,
which the strict progress makes sufficient — reaches the end of the source;
and `scanTokens` appends exactly one trailing `EOF` token as the final
element of the token list (every earlier token is non-`EOF`). -/
theorem c10_scanner_terminates :
    (∀ (src : List Char) (st : ScanSt), st.current < (scanToken src st).current) ∧
    (∀ src : List Char,
      scIsAtEnd src (scanLoop src src.length ⟨0, 0, 1, 1, [], []⟩) = true) ∧
    (∀ src : List Char, ∃ body : List Token,
      (scanTokens src).tokens =
        body ++ [⟨.EOF, [], .nil,
          (scanLoop src src.length ⟨0, 0, 1, 1, [], []⟩).line,
          (scanLoop src src.length ⟨0, 0, 1, 1, [], []⟩).column⟩] ∧
      ∀ t ∈ body, t.type ≠ TokenType.EOF) := by
  refine ⟨fun src st => (scanToken_cases src st).2.1,
    fun src => scanLoop_reaches_end src src.length _ (by simp),
    fun src => ?_⟩
  obtain ⟨dt, de, ht, herr, heof⟩ := scanLoop_mono src src.length ⟨0, 0, 1, 1, [], []⟩
  refine ⟨(scanLoop src src.length ⟨0, 0, 1, 1, [], []⟩).tokens, rfl, ?_⟩
  intro t hmem
  rw [ht] at hmem
  simp only [List.nil_append] at hmem
  exact heof t hmem

/-- C6: for every source string on which scanning reports no error, the
source decomposes as the in-order interleaving of the emitted tokens'
lexemes (`EOF` excluded; comment tokens contribute their text, which is
their lexeme) with the skipped whitespace and newline characters — i.e.
concatenating them in source order reconstructs the source exactly. -/
theorem c6_lexeme_coverage (src : List Char)
    (h : (scanTokens src).errors = []) :
    Interleaving src (((scanTokens src).tokens.dropLast).map Token.lexeme) := by
  have herr : (scanLoop src src.length ⟨0, 0, 1, 1, [], []⟩).errors = [] := h
  have hi := scanLoop_interleave src src.length ⟨0, 0, 1, 1, [], []⟩ (by simp) herr
  simpa only [scanTokens, List.dropLast_concat, List.drop_zero, List.drop] using hi

/-- Witness for C6 at the concrete source `"1 + 2"`. -/
theorem c6_lexeme_coverage_witness :
    Interleaving ("1 + 2".data)
      (((scanTokens ("1 + 2".data)).tokens.dropLast).map Token.lexeme) :=
  c6_lexeme_coverage ("1 + 2".data) (by decide)

/-- C4 counterexample: the lexeme `AND` has identifier shape and is not a
key of the keyword table (whose keys are lowercase), yet the scanner emits
the keyword kind `AND` for it — because `scanIdentifier` lowercases the text
before the lookup — instead of the `IDENTIFIER` the claim requires. -/
theorem c4_counterexample :
    (("AND".data).all isAlphaNumericChar = true) ∧
    isAlphaChar 'A' = true ∧
    listGet TokenKeywordMap ("AND".data) = none ∧
    (scanTokens ("AND".data)).tokens.map Token.type = [.AND, .EOF] ∧
    TokenType.AND ≠ TokenType.IDENTIFIER := by
  refine ⟨by decide, by decide, by decide, by decide, by decide⟩

/-- C4 (amended): every token emitted by the scanner's identifier path is a
keyword token if and only if the *lowercased* identifier text is present in
the keyword table (the lookup is case-insensitive), and an `IDENTIFIER`
token otherwise. -/
theorem c4_keyword_lookup (src : List Char) (st : ScanSt) :
    ∃ t, (scanIdentifier src st).tokens = st.tokens ++ [t] ∧
      ((∃ k, listGet TokenKeywordMap (t.lexeme.map Char.toLower) = some k ∧ t.type = k) ∨
       (listGet TokenKeywordMap (t.lexeme.map Char.toLower) = none ∧
         t.type = TokenType.IDENTIFIER)) := by
  obtain ⟨-, -, t, t1, -, -, t4⟩ := scanIdentifier_spec src st
  refine ⟨t, t1, ?_⟩
  cases hk : listGet TokenKeywordMap (t.lexeme.map Char.toLower) with
  | none =>
    right
    rw [t4, hk]
    exact ⟨rfl, rfl⟩
  | some k =>
    left
    rw [t4, hk]
    exact ⟨k, rfl, rfl⟩

/-! ## AST (`src/Ast/Expr.ts`, `src/Ast/Stmt.ts`)

The visitor interface of the source is replaced by tagged sum types with
exhaustive matching (as the specification's design notes direct).  The
resolver side-table, keyed in the source by AST-node identity
(`Interpreter.locals`), is embedded as an `Option Nat` annotation slot on
the four use-site forms; the parser always constructs them unresolved
(`none`), and the resolver fills them in. -/

mutual
inductive Expr where
  | assign (name : Token) (value : Expr) (resolved : Option Nat)
  | binary (left : Expr) (operator : Token) (right : Expr)
  | call (callee : Expr) (paren : Token) (args : List Expr)
  | get (object : Expr) (name : Token)
  | grouping (expression : Expr)
  | literal (value : Prim)
  | logical (left : Expr) (operator : Token) (right : Expr)
  | setE (object : Expr) (name : Token) (value : Expr)
  | superE (keyword : Token) (method : Token) (resolved : Option Nat)
  | thisE (keyword : Token) (resolved : Option Nat)
  | unary (operator : Token) (right : Expr)
  | variableE (name : Token) (resolved : Option Nat)

inductive Stmt where
  | block (statements : List Stmt)
  | classS (name : Token) (superclass : Option Expr) (methods : List FunDecl)
  | exprS (expression : Expr)
  | funS (f : FunDecl)
  | ifS (condition : Expr) (thenBranch : Stmt) (elseBranch : Option Stmt)
  | print (expression : Expr)
  | returnS (keyword : Token) (value : Option Expr)
  | varS (name : Token) (initializer : Option Expr)
  | whileS (condition : Expr) (body : Stmt)

/-- `Stmt.Fun`: function name, parameter tokens, body statement list. -/
inductive FunDecl where
  | mk (name : Token) (params : List Token) (body : List Stmt)
end

def FunDecl.name : FunDecl → Token
  | .mk n _ _ => n

def FunDecl.params : FunDecl → List Token
  | .mk _ p _ => p

def FunDecl.body : FunDecl → List Stmt
  | .mk _ _ b => b

/-! ## Parser (`src/Parser/Parser.ts`, final snapshot)

The parser's mutable state is the token cursor plus the reported errors;
the token list is a fixed parameter.  A thrown `ParseError` becomes the
`thrown` outcome (carrying the culprit token, the message, and the state —
the error has already been reported into `errors` when it is thrown, as in
the source's `error()` helper).  The recursion is fuel-driven. -/

structure ParseErr where
  line : Nat
  column : Nat
  locus : String
  message : String
deriving DecidableEq, Repr

structure PSt where
  current : Nat
  errors : List ParseErr
deriving DecidableEq, Repr

inductive POut (α : Type) where
  | ok (a : α) (st : PSt)
  | thrown (tok : Token) (msg : String) (st : PSt)
  | fuelOut

/-- The parser indexes `tokens[current]`; a scanner token list always ends
with `EOF`, and the parser never advances past it.  The embedded fallback
token (an `EOF` at position 0) is therefore never reached on scanner
output. -/
def eofFallback : Token := ⟨.EOF, [], .nil, 0, 0⟩

def pPeek (tokens : List Token) (st : PSt) : Token :=
  tokens.getD st.current eofFallback

def pPrevious (tokens : List Token) (st : PSt) : Token :=
  tokens.getD (st.current - 1) eofFallback

def pIsAtEnd (tokens : List Token) (st : PSt) : Bool :=
  (pPeek tokens st).type = TokenType.EOF

def pCheck (tokens : List Token) (st : PSt) (ty : TokenType) : Bool :=
  if pIsAtEnd tokens st then false else (pPeek tokens st).type = ty

def pAdvance (tokens : List Token) (st : PSt) : Token × PSt :=
  let st1 := if pIsAtEnd tokens st then st else { st with current := st.current + 1 }
  (pPrevious tokens st1, st1)

def pMatch (tokens : List Token) (st : PSt) (types : List TokenType) : Bool × PSt :=
  if types.any (fun ty => pCheck tokens st ty) then
    (true, (pAdvance tokens st).2)
  else (false, st)

/-- `error(token, message)`: report (with the `at end` / `at LEXEME` locus)
and return the `ParseError` outcome to be thrown. -/
def pError (st : PSt) (tok : Token) (msg : String) : PSt :=
  { st with errors := st.errors ++
      [⟨tok.line, tok.column,
        if tok.type = TokenType.EOF then " at end" else " at " ++ String.mk tok.lexeme,
        msg⟩] }

def pConsume (tokens : List Token) (st : PSt) (ty : TokenType) (msg : String) : POut Token :=
  if pCheck tokens st ty then
    .ok (pAdvance tokens st).1 (pAdvance tokens st).2
  else
    .thrown (pPeek tokens st) msg (pError st (pPeek tokens st) msg)

/-- The loop inside `synchronize`. -/
def pSyncLoop (tokens : List Token) : Nat → PSt → PSt
  | 0, st => st
  | fuel + 1, st =>
      if pIsAtEnd tokens st then st
      else if (pPrevious tokens st).type = TokenType.SEMICOLON then st
      else if ((pPeek tokens st).type = TokenType.CLASS ∨
          (pPeek tokens st).type = TokenType.FUN ∨
          (pPeek tokens st).type = TokenType.VAR ∨
          (pPeek tokens st).type = TokenType.FOR ∨
          (pPeek tokens st).type = TokenType.IF ∨
          (pPeek tokens st).type = TokenType.WHILE ∨
          (pPeek tokens st).type = TokenType.PRINT ∨
          (pPeek tokens st).type = TokenType.RETURN) then st
      else pSyncLoop tokens fuel (pAdvance tokens st).2

/-- `synchronize()`. -/
def pSynchronize (tokens : List Token) (fuel : Nat) (st : PSt) : PSt :=
  pSyncLoop tokens fuel (pAdvance tokens st).2

def POut.bind {α β : Type} : POut α → (α → PSt → POut β) → POut β
  | .ok a st, f => f a st
  | .thrown t m st, _ => .thrown t m st
  | .fuelOut, _ => .fuelOut

mutual

/-- `parse()`: collect declarations until `EOF`; a thrown `ParseError`
synchronizes and continues (the offending declaration is dropped). -/
def pParse (tokens : List Token) : Nat → PSt → POut (List Stmt)
  | 0, _ => .fuelOut
  | fuel + 1, st =>
      if pIsAtEnd tokens st then .ok [] st
      else
        match pDeclaration tokens fuel st with
        | .ok s st1 =>
            (pParse tokens fuel st1).bind fun rest st2 => .ok (s :: rest) st2
        | .thrown _ _ st1 => pParse tokens fuel (pSynchronize tokens fuel st1)
        | .fuelOut => .fuelOut

def pDeclaration (tokens : List Token) : Nat → PSt → POut Stmt
  | 0, _ => .fuelOut
  | fuel + 1, st =>
      if (pMatch tokens st [.FUN]).1 then
        (pFunctionDecl tokens "function" fuel (pMatch tokens st [.FUN]).2).bind
          fun f st1 => .ok (.funS f) st1
      else if (pMatch tokens st [.VAR]).1 then
        pVarDeclaration tokens fuel (pMatch tokens st [.VAR]).2
      else pStatement tokens fuel st

def pStatement (tokens : List Token) : Nat → PSt → POut Stmt
  | 0, _ => .fuelOut
  | fuel + 1, st =>
      if (pMatch tokens st [.FOR]).1 then pForStatement tokens fuel (pMatch tokens st [.FOR]).2
      else if (pMatch tokens st [.IF]).1 then pIfStatement tokens fuel (pMatch tokens st [.IF]).2
      else if (pMatch tokens st [.PRINT]).1 then
        pPrintStatement tokens fuel (pMatch tokens st [.PRINT]).2
      else if (pMatch tokens st [.WHILE]).1 then
        pWhileStatement tokens fuel (pMatch tokens st [.WHILE]).2
      else if (pMatch tokens st [.LEFT_BRACE]).1 then
        (pBlockStatement tokens fuel (pMatch tokens st [.LEFT_BRACE]).2).bind
          fun l st1 => .ok (.block l) st1
      else pExpressionStatement tokens fuel st

/-- `forStatement()`: parse the clauses, then desugar. -/
def pForStatement (tokens : List Token) : Nat → PSt → POut Stmt
  | 0, _ => .fuelOut
  | fuel + 1, st =>
      (pConsume tokens st .LEFT_PAREN "Expected '(' after 'for'").bind fun _ st1 =>
      (if (pMatch tokens st1 [.SEMICOLON]).1 then
          .ok none (pMatch tokens st1 [.SEMICOLON]).2
        else if (pMatch tokens st1 [.VAR]).1 then
          (pVarDeclaration tokens fuel (pMatch tokens st1 [.VAR]).2).bind
            fun s st2 => .ok (some s) st2
        else
          (pExpressionStatement tokens fuel st1).bind
            fun s st2 => .ok (some s) st2).bind fun initializer st2 =>
      (if ¬ pCheck tokens st2 .SEMICOLON then
          (pExpression tokens fuel st2).bind fun e st3 => .ok (some e) st3
        else .ok none st2).bind fun condition st3 =>
      (pConsume tokens st3 .SEMICOLON "Expected ';' after loop condition").bind fun _ st4 =>
      (if ¬ pCheck tokens st4 .RIGHT_PAREN then
          (pExpression tokens fuel st4).bind fun e st5 => .ok (some e) st5
        else .ok none st4).bind fun increment st5 =>
      (pConsume tokens st5 .RIGHT_PAREN "Expected ')' after loop clauses").bind fun _ st6 =>
      (pStatement tokens fuel st6).bind fun body st7 =>
      let body1 :=
        match increment with
        | some inc => Stmt.block [body, Stmt.exprS inc]
        | none => body
      let cond1 :=
        match condition with
        | some c => c
        | none => Expr.literal (.bool true)
      let body2 := Stmt.whileS cond1 body1
      let body3 :=
        match initializer with
        | some ini => Stmt.block [ini, body2]
        | none => body2
      .ok body3 st7

def pIfStatement (tokens : List Token) : Nat → PSt → POut Stmt
  | 0, _ => .fuelOut
  | fuel + 1, st =>
      (pConsume tokens st .LEFT_PAREN "Expected '(' after 'if'").bind fun _ st1 =>
      (pExpression tokens fuel st1).bind fun condition st2 =>
      (pConsume tokens st2 .RIGHT_PAREN "Expected ')' after condition").bind fun _ st3 =>
      (pStatement tokens fuel st3).bind fun thenBranch st4 =>
      if (pMatch tokens st4 [.ELSE]).1 then
        (pStatement tokens fuel (pMatch tokens st4 [.ELSE]).2).bind fun elseBranch st5 =>
        .ok (.ifS condition thenBranch (some elseBranch)) st5
      else .ok (.ifS condition thenBranch none) st4

def pPrintStatement (tokens : List Token) : Nat → PSt → POut Stmt
  | 0, _ => .fuelOut
  | fuel + 1, st =>
      (pExpression tokens fuel st).bind fun value st1 =>
      (pConsume tokens st1 .SEMICOLON "Expected ';' after value").bind fun _ st2 =>
      .ok (.print value) st2

def pWhileStatement (tokens : List Token) : Nat → PSt → POut Stmt
  | 0, _ => .fuelOut
  | fuel + 1, st =>
      (pConsume tokens st .LEFT_PAREN "Expected '(' after 'while'").bind fun _ st1 =>
      (pExpression tokens fuel st1).bind fun condition st2 =>
      (pConsume tokens st2 .RIGHT_PAREN "Expected ')' after condition").bind fun _ st3 =>
      (pStatement tokens fuel st3).bind fun body st4 =>
      .ok (.whileS condition body) st4

def pExpressionStatement (tokens : List Token) : Nat → PSt → POut Stmt
  | 0, _ => .fuelOut
  | fuel + 1, st =>
      (pExpression tokens fuel st).bind fun e st1 =>
      (pConsume tokens st1 .SEMICOLON "Expected ';' after value").bind fun _ st2 =>
      .ok (.exprS e) st2

/-- `blockStatement()`: the declaration list between braces. -/
def pBlockStatement (tokens : List Token) : Nat → PSt → POut (List Stmt)
  | 0, _ => .fuelOut
  | fuel + 1, st =>
      if ¬ pCheck tokens st .RIGHT_BRACE ∧ ¬ pIsAtEnd tokens st then
        (pDeclaration tokens fuel st).bind fun s st1 =>
        (pBlockStatement tokens fuel st1).bind fun rest st2 =>
        .ok (s :: rest) st2
      else
        (pConsume tokens st .RIGHT_BRACE "Expected '\x7d' after block").bind fun _ st1 =>
        .ok [] st1

def pFunctionDecl (tokens : List Token) (kind : String) : Nat → PSt → POut FunDecl
  | 0, _ => .fuelOut
  | fuel + 1, st =>
      (pConsume tokens st .IDENTIFIER ("Expected " ++ kind ++ " name")).bind fun name st1 =>
      (pConsume tokens st1 .LEFT_PAREN ("Expected '(' after " ++ kind ++ " name")).bind
        fun _ st2 =>
      (if ¬ pCheck tokens st2 .RIGHT_PAREN then pParamsLoop tokens fuel st2 []
        else .ok [] st2).bind fun params st3 =>
      (pConsume tokens st3 .RIGHT_PAREN ("Expected ')' after " ++ kind ++ " parameters")).bind
        fun _ st4 =>
      (pConsume tokens st4 .LEFT_BRACE ("Expected '\x7b' before " ++ kind ++ " body")).bind
        fun _ st5 =>
      (pBlockStatement tokens fuel st5).bind fun body st6 =>
      .ok (.mk name params body) st6

/-- The `do … while (match(COMMA))` parameter loop; reports (without
throwing) past 255 parameters. -/
def pParamsLoop (tokens : List Token) : Nat → PSt → List Token → POut (List Token)
  | 0, _, _ => .fuelOut
  | fuel + 1, st, acc =>
      let st0 := if 255 ≤ acc.length then
        pError st (pPeek tokens st) "Can't have more than 255 parameters" else st
      (pConsume tokens st0 .IDENTIFIER "Expected parameter name").bind fun p st1 =>
      if (pMatch tokens st1 [.COMMA]).1 then
        pParamsLoop tokens fuel (pMatch tokens st1 [.COMMA]).2 (acc ++ [p])
      else .ok (acc ++ [p]) st1

def pVarDeclaration (tokens : List Token) : Nat → PSt → POut Stmt
  | 0, _ => .fuelOut
  | fuel + 1, st =>
      (pConsume tokens st .IDENTIFIER "Expected variable name").bind fun name st1 =>
      (if (pMatch tokens st1 [.EQUAL]).1 then
          (pExpression tokens fuel (pMatch tokens st1 [.EQUAL]).2).bind
            fun e st2 => .ok (some e) st2
        else .ok none st1).bind fun initializer st2 =>
      (pConsume tokens st2 .SEMICOLON "Expected ';' after variable declaration").bind
        fun _ st3 =>
      .ok (.varS name initializer) st3

def pExpression (tokens : List Token) : Nat → PSt → POut Expr
  | 0, _ => .fuelOut
  | fuel + 1, st => pAssignment tokens fuel st

def pAssignment (tokens : List Token) : Nat → PSt → POut Expr
  | 0, _ => .fuelOut
  | fuel + 1, st =>
      (pOr tokens fuel st).bind fun expr st1 =>
      if (pMatch tokens st1 [.EQUAL]).1 then
        let st2 := (pMatch tokens st1 [.EQUAL]).2
        let equals := pPrevious tokens st2
        (pAssignment tokens fuel st2).bind fun value st3 =>
        match expr with
        | .variableE name _ => .ok (.assign name value none) st3
        | _ => .ok expr (pError st3 equals "Invalid assignment target")
      else .ok expr st1

def pOr (tokens : List Token) : Nat → PSt → POut Expr
  | 0, _ => .fuelOut
  | fuel + 1, st =>
      (pAnd tokens fuel st).bind fun e st1 => pOrLoop tokens fuel st1 e

def pOrLoop (tokens : List Token) : Nat → PSt → Expr → POut Expr
  | 0, _, _ => .fuelOut
  | fuel + 1, st, expr =>
      if (pMatch tokens st [.OR]).1 then
        let st1 := (pMatch tokens st [.OR]).2
        (pAnd tokens fuel st1).bind fun right st2 =>
        pOrLoop tokens fuel st2 (.logical expr (pPrevious tokens st1) right)
      else .ok expr st

def pAnd (tokens : List Token) : Nat → PSt → POut Expr
  | 0, _ => .fuelOut
  | fuel + 1, st =>
      (pEquality tokens fuel st).bind fun e st1 => pAndLoop tokens fuel st1 e

def pAndLoop (tokens : List Token) : Nat → PSt → Expr → POut Expr
  | 0, _, _ => .fuelOut
  | fuel + 1, st, expr =>
      if (pMatch tokens st [.AND]).1 then
        let st1 := (pMatch tokens st [.AND]).2
        (pEquality tokens fuel st1).bind fun right st2 =>
        pAndLoop tokens fuel st2 (.logical expr (pPrevious tokens st1) right)
      else .ok expr st

def pEquality (tokens : List Token) : Nat → PSt → POut Expr
  | 0, _ => .fuelOut
  | fuel + 1, st =>
      (pComparison tokens fuel st).bind fun e st1 => pEqualityLoop tokens fuel st1 e

def pEqualityLoop (tokens : List Token) : Nat → PSt → Expr → POut Expr
  | 0, _, _ => .fuelOut
  | fuel + 1, st, expr =>
      if (pMatch tokens st [.BANG_EQUAL, .EQUAL_EQUAL]).1 then
        let st1 := (pMatch tokens st [.BANG_EQUAL, .EQUAL_EQUAL]).2
        (pComparison tokens fuel st1).bind fun right st2 =>
        pEqualityLoop tokens fuel st2 (.binary expr (pPrevious tokens st1) right)
      else .ok expr st

def pComparison (tokens : List Token) : Nat → PSt → POut Expr
  | 0, _ => .fuelOut
  | fuel + 1, st =>
      (pTerm tokens fuel st).bind fun e st1 => pComparisonLoop tokens fuel st1 e

def pComparisonLoop (tokens : List Token) : Nat → PSt → Expr → POut Expr
  | 0, _, _ => .fuelOut
  | fuel + 1, st, expr =>
      if (pMatch tokens st [.GREATER, .GREATER_EQUAL, .LESS, .LESS_EQUAL]).1 then
        let st1 := (pMatch tokens st [.GREATER, .GREATER_EQUAL, .LESS, .LESS_EQUAL]).2
        (pTerm tokens fuel st1).bind fun right st2 =>
        pComparisonLoop tokens fuel st2 (.binary expr (pPrevious tokens st1) right)
      else .ok expr st

def pTerm (tokens : List Token) : Nat → PSt → POut Expr
  | 0, _ => .fuelOut
  | fuel + 1, st =>
      (pFactor tokens fuel st).bind fun e st1 => pTermLoop tokens fuel st1 e

def pTermLoop (tokens : List Token) : Nat → PSt → Expr → POut Expr
  | 0, _, _ => .fuelOut
  | fuel + 1, st, expr =>
      if (pMatch tokens st [.MINUS, .PLUS]).1 then
        let st1 := (pMatch tokens st [.MINUS, .PLUS]).2
        (pFactor tokens fuel st1).bind fun right st2 =>
        pTermLoop tokens fuel st2 (.binary expr (pPrevious tokens st1) right)
      else .ok expr st

def pFactor (tokens : List Token) : Nat → PSt → POut Expr
  | 0, _ => .fuelOut
  | fuel + 1, st =>
      (pUnary tokens fuel st).bind fun e st1 => pFactorLoop tokens fuel st1 e

def pFactorLoop (tokens : List Token) : Nat → PSt → Expr → POut Expr
  | 0, _, _ => .fuelOut
  | fuel + 1, st, expr =>
      if (pMatch tokens st [.SLASH, .STAR]).1 then
        let st1 := (pMatch tokens st [.SLASH, .STAR]).2
        (pUnary tokens fuel st1).bind fun right st2 =>
        pFactorLoop tokens fuel st2 (.binary expr (pPrevious tokens st1) right)
      else .ok expr st

def pUnary (tokens : List Token) : Nat → PSt → POut Expr
  | 0, _ => .fuelOut
  | fuel + 1, st =>
      if (pMatch tokens st [.BANG, .MINUS]).1 then
        let st1 := (pMatch tokens st [.BANG, .MINUS]).2
        (pUnary tokens fuel st1).bind fun right st2 =>
        .ok (.unary (pPrevious tokens st1) right) st2
      else pCallExpr tokens fuel st

def pCallExpr (tokens : List Token) : Nat → PSt → POut Expr
  | 0, _ => .fuelOut
  | fuel + 1, st =>
      (pPrimary tokens fuel st).bind fun e st1 => pCallLoop tokens fuel st1 e

def pCallLoop (tokens : List Token) : Nat → PSt → Expr → POut Expr
  | 0, _, _ => .fuelOut
  | fuel + 1, st, expr =>
      if (pMatch tokens st [.LEFT_PAREN]).1 then
        (pFinishCall tokens fuel (pMatch tokens st [.LEFT_PAREN]).2 expr).bind
          fun e st1 => pCallLoop tokens fuel st1 e
      else .ok expr st

def pFinishCall (tokens : List Token) : Nat → PSt → Expr → POut Expr
  | 0, _, _ => .fuelOut
  | fuel + 1, st, callee =>
      (if ¬ pCheck tokens st .RIGHT_PAREN then pArgsLoop tokens fuel st []
        else .ok [] st).bind fun args st1 =>
      (pConsume tokens st1 .RIGHT_PAREN "Expected ')' after function arguments").bind
        fun paren st2 =>
      .ok (.call callee paren args) st2

/-- The `do … while (match(COMMA))` argument loop; reports (without
throwing) past 255 arguments. -/
def pArgsLoop (tokens : List Token) : Nat → PSt → List Expr → POut (List Expr)
  | 0, _, _ => .fuelOut
  | fuel + 1, st, acc =>
      let st0 := if 255 ≤ acc.length then
        pError st (pPeek tokens st) "Can't have more than 255 arguments" else st
      (pExpression tokens fuel st0).bind fun e st1 =>
      if (pMatch tokens st1 [.COMMA]).1 then
        pArgsLoop tokens fuel (pMatch tokens st1 [.COMMA]).2 (acc ++ [e])
      else .ok (acc ++ [e]) st1

def pPrimary (tokens : List Token) : Nat → PSt → POut Expr
  | 0, _ => .fuelOut
  | fuel + 1, st =>
      if (pMatch tokens st [.FALSE]).1 then
        .ok (.literal (.bool false)) (pMatch tokens st [.FALSE]).2
      else if (pMatch tokens st [.TRUE]).1 then
        .ok (.literal (.bool true)) (pMatch tokens st [.TRUE]).2
      else if (pMatch tokens st [.NIL]).1 then
        .ok (.literal .nil) (pMatch tokens st [.NIL]).2
      else if (pMatch tokens st [.NUMBER, .STRING]).1 then
        let st1 := (pMatch tokens st [.NUMBER, .STRING]).2
        .ok (.literal (pPrevious tokens st1).literal) st1
      else if (pMatch tokens st [.IDENTIFIER]).1 then
        let st1 := (pMatch tokens st [.IDENTIFIER]).2
        .ok (.variableE (pPrevious tokens st1) none) st1
      else if (pMatch tokens st [.LEFT_PAREN]).1 then
        (pExpression tokens fuel (pMatch tokens st [.LEFT_PAREN]).2).bind fun e st1 =>
        (pConsume tokens st1 .RIGHT_PAREN "Expected ')' after expression").bind fun _ st2 =>
        .ok (.grouping e) st2
      else
        .thrown (pPeek tokens st) "Expected expression"
          (pError st (pPeek tokens st) "Expected expression")

end

lemma POut.bind_congr {α β : Type} (o : POut α) (f g : α → PSt → POut β)
    (h : ∀ a st, f a st = g a st) : o.bind f = o.bind g := by
  cases o <;> simp only [POut.bind, h]

/-- The desugared `for` AST exactly as the claim and the specification word
it: the initializer (when present) becomes a block prelude; an absent
condition defaults to `Literal(true)`; the increment (when present) is
wrapped with the original body as a trailing expression statement in a
synthesized block; the result is built around a `While`, never a dedicated
`For` node (the `Stmt` sum type has no `For` variant at all). -/
def desugarForSpec (initializer : Option Stmt) (condition : Option Expr)
    (increment : Option Expr) (body : Stmt) : Stmt :=
  let whileBody :=
    match increment with
    | some inc => Stmt.block [body, Stmt.exprS inc]
    | none => body
  let theWhile := Stmt.whileS (condition.getD (Expr.literal (.bool true))) whileBody
  match initializer with
  | some ini => Stmt.block [ini, theWhile]
  | none => theWhile

/-- `forStatement` with the same clause parsing but assembling its result
through `desugarForSpec`, i.e. exactly as the claim describes the output. -/
def pForStatementSpec (tokens : List Token) : Nat → PSt → POut Stmt
  | 0, _ => .fuelOut
  | fuel + 1, st =>
      (pConsume tokens st .LEFT_PAREN "Expected '(' after 'for'").bind fun _ st1 =>
      (if (pMatch tokens st1 [.SEMICOLON]).1 then
          .ok none (pMatch tokens st1 [.SEMICOLON]).2
        else if (pMatch tokens st1 [.VAR]).1 then
          (pVarDeclaration tokens fuel (pMatch tokens st1 [.VAR]).2).bind
            fun s st2 => .ok (some s) st2
        else
          (pExpressionStatement tokens fuel st1).bind
            fun s st2 => .ok (some s) st2).bind fun initializer st2 =>
      (if ¬ pCheck tokens st2 .SEMICOLON then
          (pExpression tokens fuel st2).bind fun e st3 => .ok (some e) st3
        else .ok none st2).bind fun condition st3 =>
      (pConsume tokens st3 .SEMICOLON "Expected ';' after loop condition").bind fun _ st4 =>
      (if ¬ pCheck tokens st4 .RIGHT_PAREN then
          (pExpression tokens fuel st4).bind fun e st5 => .ok (some e) st5
        else .ok none st4).bind fun increment st5 =>
      (pConsume tokens st5 .RIGHT_PAREN "Expected ')' after loop clauses").bind fun _ st6 =>
      (pStatement tokens fuel st6).bind fun body st7 =>
      .ok (desugarForSpec initializer condition increment body) st7

/-- C7: every successfully parsed `for` statement is returned in exactly the
desugared shape the specification describes — `forStatement` is extensionally
equal to the variant that assembles its output with `desugarForSpec`; in
particular no dedicated `For` node exists or is produced, the condition
defaults to `Literal(true)`, the increment (when present) is appended to the
body inside a synthesized block, and the initializer (when present) becomes
the first statement of an enclosing block. -/
theorem c7_for_desugars (tokens : List Token) (fuel : Nat) (st : PSt) :
    pForStatement tokens fuel st = pForStatementSpec tokens fuel st := by
  cases fuel with
  | zero => rfl
  | succ f =>
    simp only [pForStatement, pForStatementSpec]
    apply POut.bind_congr
    intro u1 st1
    apply POut.bind_congr
    intro ini st2
    apply POut.bind_congr
    intro cond st3
    apply POut.bind_congr
    intro u2 st4
    apply POut.bind_congr
    intro inc st5
    apply POut.bind_congr
    intro u3 st6
    apply POut.bind_congr
    intro body st7
    cases ini <;> cases cond <;> cases inc <;> rfl

/-! ## Runtime data model (`src/Interpreter/*`)

Runtime objects with JavaScript reference identity — environments
(`Environment`), functions (`LoxFunction`), classes (`LoxClass`) and
instances (`LoxInstance`) — live in explicit append-only stores inside
`LoxState`; a `Value` refers to them by store address, which makes `===`
(reference equality) the decidable equality of addresses. -/

inductive Value where
  | nil
  | bool (b : Bool)
  | num (q : Rat)
  | str (s : List Char)
  | fn (addr : Nat)
  | nativeClock
  | klass (addr : Nat)
  | inst (addr : Nat)
deriving DecidableEq, Repr

/-- A `LoxFunction`: declaration, captured closure environment address,
`isInitializer` flag. -/
structure FunObj where
  declaration : FunDecl
  closure : Nat
  isInitializer : Bool

/-- A `LoxClass`: name, optional superclass (class address), method table
(name → function address, insertion-ordered with `Map.set` semantics). -/
structure ClassObj where
  name : List Char
  superclass : Option Nat
  methods : List (List Char × Nat)
deriving DecidableEq, Repr

/-- A `LoxInstance`: its class address and its field map. -/
structure InstObj where
  klass : Nat
  fields : List (List Char × Value)
deriving DecidableEq, Repr

/-- An `Environment`: its local map and the optional enclosing environment
address.  The enclosing address always refers to an earlier-allocated frame,
so chains are acyclic and strictly address-decreasing. -/
structure Frame where
  values : List (List Char × Value)
  enclosing : Option Nat
deriving DecidableEq, Repr

/-- The interpreter's mutable state: the four object stores, the current
environment address, the globals address, the printed output, and the value
the native `clock` reports (the wall clock is abstracted as a state field —
no verified claim observes it). -/
structure LoxState where
  frames : List Frame
  functions : List FunObj
  classes : List ClassObj
  instances : List InstObj
  environment : Nat
  globals : Nat
  output : List String
  now : Rat

/-- The two unwinding conditions: `RuntimeError` (token + message) and
`ReturnError` (carried value). -/
inductive Exc where
  | runtime (token : Token) (message : String)
  | ret (value : Value)
deriving DecidableEq, Repr

/-- Result payload of one interpreter request: an expression value, an
argument list, or statement completion (`void`). -/
inductive Res where
  | val (v : Value)
  | vals (l : List Value)
  | unit
deriving DecidableEq, Repr

/-- Evaluation outcome: normal completion, exception unwind (both carrying
the state as mutated so far), or out of fuel. -/
inductive Outcome where
  | ok (r : Res) (s : LoxState)
  | exc (e : Exc) (s : LoxState)
  | diverge

def Outcome.bind (o : Outcome) (f : Res → LoxState → Outcome) : Outcome :=
  match o with
  | .ok r s => f r s
  | .exc e s => .exc e s
  | .diverge => .diverge

def Res.toVal : Res → Value
  | .val v => v
  | _ => .nil

def Res.toVals : Res → List Value
  | .vals l => l
  | _ => []

def frameAt (s : LoxState) (a : Nat) : Frame := s.frames.getD a ⟨[], none⟩

def funAt (s : LoxState) (a : Nat) : FunObj :=
  s.functions.getD a ⟨.mk eofFallback [] [], 0, false⟩

def classAt (s : LoxState) (a : Nat) : ClassObj := s.classes.getD a ⟨[], none, []⟩

def instAt (s : LoxState) (a : Nat) : InstObj := s.instances.getD a ⟨0, []⟩

/-- `new Environment(enclosing)`: append a fresh empty frame. -/
def pushFrame (s : LoxState) (enc : Option Nat) : LoxState :=
  { s with frames := s.frames ++ [⟨[], enc⟩] }

/-- `new LoxFunction(...)`: append a fresh function object. -/
def allocFun (s : LoxState) (f : FunObj) : LoxState :=
  { s with functions := s.functions ++ [f] }

/-- `Environment.define(name, value)` on the frame at `addr`. -/
def envDefine (s : LoxState) (addr : Nat) (n : List Char) (v : Value) : LoxState :=
  { s with frames :=
      s.frames.set addr ⟨listSet (frameAt s addr).values n v, (frameAt s addr).enclosing⟩ }

/-- `Environment.get(name)` (`src/Interpreter/Environment.ts`): look in the
local map, else recurse into the enclosing environment, else fail
(the caller raises `Undefined variable`).  The recursion is gas-driven with
gas `addr + 1`, which covers every chain of strictly decreasing addresses —
the only chains the interpreter ever builds. -/
def envGetAux (s : LoxState) : Nat → Nat → List Char → Option Value
  | 0, _, _ => none
  | gas + 1, addr, n =>
      match listGet (frameAt s addr).values n with
      | some v => some v
      | none =>
          match (frameAt s addr).enclosing with
          | some p => envGetAux s gas p n
          | none => none

def envGet (s : LoxState) (addr : Nat) (n : List Char) : Option Value :=
  envGetAux s (addr + 1) addr n

/-- `Environment.assign(name, value)`: assign where the name is defined,
else recurse; `none` means `Undefined variable`. -/
def envAssignAux (s : LoxState) : Nat → Nat → List Char → Value → Option LoxState
  | 0, _, _, _ => none
  | gas + 1, addr, n, v =>
      if (listGet (frameAt s addr).values n).isSome then some (envDefine s addr n v)
      else
        match (frameAt s addr).enclosing with
        | some p => envAssignAux s gas p n v
        | none => none

def envAssign (s : LoxState) (addr : Nat) (n : List Char) (v : Value) : Option LoxState :=
  envAssignAux s (addr + 1) addr n v

/-- Modelled from the spec: `Environment.ancestor` is not among the provided
sources (only its callers `getAt`/`assignAt` call sites are).  Spec §4.4:
"walk exactly *d* enclosing links from the current environment".  A missing
enclosing link mid-walk (impossible for resolver-recorded distances) is
totalised to address 0. -/
def ancestorAddr (s : LoxState) : Nat → Nat → Nat
  | 0, addr => addr
  | d + 1, addr => ancestorAddr s d ((frameAt s addr).enclosing.getD 0)

/-- Modelled from the spec: `Environment.getAt(distance, name)` — "walk
exactly *d* enclosing links from the current environment and read … in that
frame's local map".  A `Map.get` miss yields `undefined` in TypeScript,
which this interpreter treats exactly like `nil` everywhere the verified
claims observe it, so the model collapses it to `nil`. -/
def envGetAt (s : LoxState) (addr d : Nat) (n : List Char) : Value :=
  (listGet (frameAt s (ancestorAddr s d addr)).values n).getD .nil

/-- Modelled from the spec: `Environment.assignAt(distance, name, value)` —
write in the frame exactly *d* links up; `Map.set` creates the binding when
it is absent. -/
def envAssignAt (s : LoxState) (addr d : Nat) (n : List Char) (v : Value) : LoxState :=
  envDefine s (ancestorAddr s d addr) n v

/-- `generateNativeEnvironment()`: a fresh environment defining `clock`. -/
def generateNativeEnvironment : Frame :=
  ⟨[(("clock").data, Value.nativeClock)], none⟩

/-- The interpreter's initial state: `globals` (frame 0) is the native
environment and is also the current environment. -/
def initialState : LoxState :=
  { frames := [generateNativeEnvironment], functions := [], classes := [],
    instances := [], environment := 0, globals := 0, output := [], now := 0 }

/-- `isTruthy(value)`: `null`/`undefined` and `false` are falsy. -/
def isTruthy : Value → Bool
  | .nil => false
  | .bool b => b
  | _ => true

/-- `isEqual(a, b)`: strict equality `===` — value equality on primitives,
reference (address) equality on objects. -/
def isEqual : Value → Value → Bool
  | .nil, .nil => true
  | .bool a, .bool b => a = b
  | .num a, .num b => a = b
  | .str a, .str b => a = b
  | .fn a, .fn b => a = b
  | .nativeClock, .nativeClock => true
  | .klass a, .klass b => a = b
  | .inst a, .inst b => a = b
  | _, _ => false

/-- `isZeroNegative`: distinguishes IEEE `-0`.  The `Rat` embedding has no
negative zero, so this is constantly false here; no verified claim observes
the `-0` rendering. -/
def isZeroNegative (_ : Rat) : Bool := false

/-- Decimal-style rendering of a number (`String(value)` in the source).
No verified claim depends on the digits produced. -/
def numToString (q : Rat) : String :=
  if q.den = 1 then toString q.num else toString q.num ++ "/" ++ toString q.den

/-- `stringify(value)` from the final interpreter snapshot. -/
def stringify (s : LoxState) : Value → String
  | .nil => "nil"
  | .str l => String.mk l
  | .num q => if isZeroNegative q then "-0" else numToString q
  | .bool b => if b then "true" else "false"
  | .fn a => "<fn " ++ String.mk (funAt s a).declaration.name.lexeme ++ ">"
  | .nativeClock => "<native fn>"
  | .klass a => String.mk (classAt s a).name
  | .inst a => String.mk (classAt s (instAt s a).klass).name ++ " instance"

/-- Modelled from the spec: `LoxClass.findMethod(name)` is not among the
provided sources (only its callers are).  Spec §3: "Method lookup walks up
the superclass chain; first hit wins."  Gas-driven like `envGetAux`;
superclass addresses strictly decrease. -/
def findMethodAux (s : LoxState) : Nat → Nat → List Char → Option Nat
  | 0, _, _ => none
  | gas + 1, c, n =>
      match listGet (classAt s c).methods n with
      | some f => some f
      | none =>
          match (classAt s c).superclass with
          | some sup => findMethodAux s gas sup n
          | none => none

def findMethod (s : LoxState) (c : Nat) (n : List Char) : Option Nat :=
  findMethodAux s (c + 1) c n

/-- `LoxFunction.bind(instance)` (`src/Interpreter/LoxFunction.ts`): a fresh
environment enclosing the closure, defining `this`, and a fresh
`LoxFunction` closing over it. -/
def bindFunction (s : LoxState) (fnAddr instAddr : Nat) : Value × LoxState :=
  let f := funAt s fnAddr
  let envA := s.frames.length
  let s1 := pushFrame s (some f.closure)
  let s2 := envDefine s1 envA ("this").data (.inst instAddr)
  (Value.fn s2.functions.length, allocFun s2 ⟨f.declaration, envA, f.isInitializer⟩)

/-- `LoxInstance.get(name)` (`src/Interpreter/LoxInstance.ts`): fields
first, then a bound method, else `Undefined property`. -/
def instanceGet (s : LoxState) (addr : Nat) (name : Token) : Outcome :=
  match listGet (instAt s addr).fields name.lexeme with
  | some v => .ok (.val v) s
  | none =>
      match findMethod s (instAt s addr).klass name.lexeme with
      | some m =>
          let r := bindFunction s m addr
          .ok (.val r.1) r.2
      | none =>
          .exc (.runtime name ("Undefined property '" ++ String.mk name.lexeme ++ "'")) s

/-- `LoxInstance.set(name, value)`. -/
def instanceSet (s : LoxState) (a : Nat) (n : List Char) (v : Value) : LoxState :=
  { s with instances := s.instances.set a ⟨(instAt s a).klass, listSet (instAt s a).fields n v⟩ }

/-- `arity()` of a callable value, `none` when the value is not a
`LoxCallable`.  For a class this is the arity of `init` when defined and 0
otherwise (modelled from the spec's class-call contract). -/
def calleeArity (s : LoxState) : Value → Option Nat
  | .fn a => some (funAt s a).declaration.params.length
  | .nativeClock => some 0
  | .klass c =>
      match findMethod s c ("init").data with
      | some m => some (funAt s m).declaration.params.length
      | none => some 0
  | _ => none

/-- `Interpreter.lookUpVariable(name, expr)`: resolver distance → `getAt`,
otherwise `globals.get` (which raises `Undefined variable` on a miss). -/
def lookUpVariable (s : LoxState) (name : Token) (resolved : Option Nat) : Outcome :=
  match resolved with
  | some d => .ok (.val (envGetAt s s.environment d name.lexeme)) s
  | none =>
      match envGet s s.globals name.lexeme with
      | some v => .ok (.val v) s
      | none =>
          .exc (.runtime name ("Undefined variable '" ++ String.mk name.lexeme ++ "'")) s

/-- Bind each parameter to the matching argument (`LoxFunction.call`'s
`for` loop); a missing argument is `undefined` (collapsed to `nil`; the
caller checked arity, so this never happens in a real call). -/
def defineParams (envA : Nat) : LoxState → List Token → List Value → LoxState
  | s, [], _ => s
  | s, p :: ps, [] => defineParams envA (envDefine s envA p.lexeme .nil) ps []
  | s, p :: ps, a :: rest => defineParams envA (envDefine s envA p.lexeme a) ps rest

/-- The `stmt.methods.forEach` loop of `visitClassStmt`: allocate one
`LoxFunction` per method (closing over `envA`, initializer iff the method is
literally named `init`) and build the method table with `Map.set`
semantics. -/
def createMethods (s : LoxState) (envA : Nat) :
    List FunDecl → List (List Char × Nat) → List (List Char × Nat) × LoxState
  | [], acc => (acc, s)
  | m :: rest, acc =>
      createMethods (allocFun s ⟨m, envA, m.name.lexeme = ("init").data⟩) envA rest
        (listSet acc m.name.lexeme s.functions.length)

/-- The token used for the `Superclass must be a class.` error
(`stmt.superclass.name` — the superclass expression is always an
`Expr.Variable` in parsed programs). -/
def exprVarName : Expr → Token
  | .variableE n _ => n
  | _ => eofFallback

/-- `visitBinaryExpr`'s operator dispatch, once both operands are values. -/
def binaryOp (op : Token) (l r : Value) (s : LoxState) : Outcome :=
  match op.type with
  | .BANG_EQUAL => .ok (.val (.bool (! isEqual l r))) s
  | .EQUAL_EQUAL => .ok (.val (.bool (isEqual l r))) s
  | .GREATER =>
      match l, r with
      | .num a, .num b => .ok (.val (.bool (decide (b < a)))) s
      | _, _ => .exc (.runtime op "Operands must be numbers.") s
  | .GREATER_EQUAL =>
      match l, r with
      | .num a, .num b => .ok (.val (.bool (decide (b ≤ a)))) s
      | _, _ => .exc (.runtime op "Operands must be numbers.") s
  | .LESS =>
      match l, r with
      | .num a, .num b => .ok (.val (.bool (decide (a < b)))) s
      | _, _ => .exc (.runtime op "Operands must be numbers.") s
  | .LESS_EQUAL =>
      match l, r with
      | .num a, .num b => .ok (.val (.bool (decide (a ≤ b)))) s
      | _, _ => .exc (.runtime op "Operands must be numbers.") s
  | .MINUS =>
      match l, r with
      | .num a, .num b => .ok (.val (.num (a - b))) s
      | _, _ => .exc (.runtime op "Operands must be numbers.") s
  | .PLUS =>
      match l, r with
      | .num a, .num b => .ok (.val (.num (a + b))) s
      | .str a, .str b => .ok (.val (.str (a ++ b))) s
      | _, _ => .exc (.runtime op "Operands must be two numbers or two strings.") s
  | .SLASH =>
      match l, r with
      | .num a, .num b =>
          if b ≠ 0 then .ok (.val (.num (a / b))) s
          else .exc (.runtime op "Cannot divide by zero.") s
      | _, _ => .exc (.runtime op "Operands must be numbers.") s
  | .STAR =>
      match l, r with
      | .num a, .num b => .ok (.val (.num (a * b))) s
      | _, _ => .exc (.runtime op "Operands must be numbers.") s
  | _ => .ok (.val .nil) s

/-- The last line of `visitClassStmt`:
`this.environment.assign(stmt.name, klass)` — reassign the class to its
(already defined) name, raising `Undefined variable` on a miss. -/
def classAssignResult (s7 : LoxState) (name : Token) (classAddr : Nat) : Outcome :=
  match envAssign s7 s7.environment name.lexeme (.klass classAddr) with
  | some s8 => .ok .unit s8
  | none =>
      .exc (.runtime name ("Undefined variable '" ++ String.mk name.lexeme ++ "'")) s7

/-- The rest of `visitClassStmt` once the superclass clause has been
evaluated (`rsup` is `.val (.klass c)` when a superclass is present —
the error path has already thrown — and `.unit` when absent): define the
class name as `null`; when a superclass is present, set
`this.environment = new Environment(this.environment)` and define `super`
in it; allocate the method functions closing over the current environment;
build the `LoxClass`; when a superclass is present, pop
`this.environment = this.environment.enclosing`; finally `assign` the
class to its name. -/
def execClassBody (s1 : LoxState) (name : Token) (rsup : Res)
    (methods : List FunDecl) : Outcome :=
  let s2 := envDefine s1 s1.environment name.lexeme .nil
  match rsup with
  | .val (.klass c) =>
      let envA := s2.frames.length
      let s4 := envDefine
        { pushFrame s2 (some s2.environment) with environment := envA }
        envA ("super").data (.klass c)
      let r := createMethods s4 envA methods []
      let classAddr := r.2.classes.length
      let s6 := { r.2 with classes := r.2.classes ++ [(⟨name.lexeme, some c, r.1⟩ : ClassObj)] }
      let s7 := { s6 with environment := (frameAt s6 s6.environment).enclosing.getD 0 }
      classAssignResult s7 name classAddr
  | _ =>
      let r := createMethods s2 s2.environment methods []
      let classAddr := r.2.classes.length
      let s6 := { r.2 with classes := r.2.classes ++ [(⟨name.lexeme, none, r.1⟩ : ClassObj)] }
      classAssignResult s6 name classAddr

/-- One interpreter request: evaluate an expression, evaluate an argument
list left-to-right, execute a statement, execute a statement sequence,
execute a block in a given environment (`executeBlock`), invoke a callable
value (`visitCallExpr`'s tail), or call a `LoxFunction`
(`LoxFunction.call`). -/
inductive Req where
  | expr (e : Expr)
  | args (es : List Expr)
  | stmt (st : Stmt)
  | stmtList (l : List Stmt)
  | block (l : List Stmt) (env : Nat)
  | callValue (callee : Value) (args : List Value) (paren : Token)
  | callFun (fnAddr : Nat) (args : List Value)

/-- The tree-walk evaluator (final interpreter snapshot).  Each `Req` case
is the translation of the corresponding `visit…` method / `LoxFunction.call`
/ `executeBlock`; the recursion is fuel-driven (one unit per recursive
call), so the definition is structurally recursive on the fuel and fully
computable; `diverge` is the out-of-fuel outcome.  `LoxClass.call` (inside
the `callValue` case) is modelled from the spec (§4.4 "Class call"), its
source not being among the provided files. -/
def interp : Nat → LoxState → Req → Outcome
  | 0, _, _ => .diverge
  | n + 1, s, req =>
      match req with
      | .expr (.literal p) =>
          .ok (.val (match p with
            | .nil => .nil
            | .bool b => .bool b
            | .num q => .num q
            | .str l => .str l)) s
      | .expr (.grouping e) => interp n s (.expr e)
      | .expr (.unary op right) =>
          (interp n s (.expr right)).bind fun r s1 =>
          if op.type = .BANG then .ok (.val (.bool (! isTruthy r.toVal))) s1
          else if op.type = .MINUS then
            match r.toVal with
            | .num q => .ok (.val (.num (-q))) s1
            | _ => .exc (.runtime op "Operand must be a number.") s1
          else .ok (.val .nil) s1
      | .expr (.binary left op right) =>
          (interp n s (.expr left)).bind fun rl s1 =>
          (interp n s1 (.expr right)).bind fun rr s2 =>
          binaryOp op rl.toVal rr.toVal s2
      | .expr (.logical left op right) =>
          (interp n s (.expr left)).bind fun rl s1 =>
          if op.type = .OR then
            if isTruthy rl.toVal then .ok (.val rl.toVal) s1 else interp n s1 (.expr right)
          else
            if ! isTruthy rl.toVal then .ok (.val rl.toVal) s1 else interp n s1 (.expr right)
      | .expr (.variableE name res) => lookUpVariable s name res
      | .expr (.thisE kw res) => lookUpVariable s kw res
      | .expr (.assign name valueE res) =>
          (interp n s (.expr valueE)).bind fun rv s1 =>
          match res with
          | some d => .ok (.val rv.toVal) (envAssignAt s1 s1.environment d name.lexeme rv.toVal)
          | none =>
              match envAssign s1 s1.globals name.lexeme rv.toVal with
              | some s2 => .ok (.val rv.toVal) s2
              | none =>
                  .exc (.runtime name
                    ("Undefined variable '" ++ String.mk name.lexeme ++ "'")) s1
      | .expr (.get obj name) =>
          (interp n s (.expr obj)).bind fun ro s1 =>
          match ro.toVal with
          | .inst a => instanceGet s1 a name
          | _ => .exc (.runtime name "Only instances have properties.") s1
      | .expr (.setE obj name valueE) =>
          (interp n s (.expr obj)).bind fun ro s1 =>
          match ro.toVal with
          | .inst a =>
              (interp n s1 (.expr valueE)).bind fun rv s2 =>
              .ok (.val rv.toVal) (instanceSet s2 a name.lexeme rv.toVal)
          | _ => .exc (.runtime name "Only instances have fields.") s1
      | .expr (.superE kw method res) =>
          match envGetAt s s.environment (res.getD 0) ("super").data with
          | .klass c =>
              match envGetAt s s.environment (res.getD 0 - 1) ("this").data with
              | .inst o =>
                  match findMethod s c method.lexeme with
                  | some m =>
                      let r := bindFunction s m o
                      .ok (.val r.1) r.2
                  | none =>
                      .exc (.runtime method
                        ("Undefined property '" ++ String.mk method.lexeme ++ "'.")) s
              | _ => .exc (.runtime kw "super: invalid this binding") s
          | _ => .exc (.runtime kw "super: invalid super binding") s
      | .expr (.call callee paren argEs) =>
          (interp n s (.expr callee)).bind fun rc s1 =>
          (interp n s1 (.args argEs)).bind fun ra s2 =>
          interp n s2 (.callValue rc.toVal ra.toVals paren)
      | .args [] => .ok (.vals []) s
      | .args (e :: rest) =>
          (interp n s (.expr e)).bind fun rv s1 =>
          (interp n s1 (.args rest)).bind fun rr s2 =>
          .ok (.vals (rv.toVal :: rr.toVals)) s2
      | .callValue callee args paren =>
          match calleeArity s callee with
          | none => .exc (.runtime paren "Can only call functions and classes.") s
          | some k =>
              if args.length ≠ k then
                .exc (.runtime paren ("Expected " ++ toString k ++ " arguments but got " ++
                  toString args.length ++ ".")) s
              else
                match callee with
                | .fn a => interp n s (.callFun a args)
                | .nativeClock => .ok (.val (.num s.now)) s
                | .klass c =>
                    let ia := s.instances.length
                    let s1 := { s with instances := s.instances ++ [⟨c, []⟩] }
                    match findMethod s1 c ("init").data with
                    | none => .ok (.val (.inst ia)) s1
                    | some m =>
                        let r := bindFunction s1 m ia
                        match r.1 with
                        | .fn ba =>
                            (interp n r.2 (.callFun ba args)).bind fun _ s3 =>
                            .ok (.val (.inst ia)) s3
                        | _ => .ok (.val (.inst ia)) r.2
                | _ => .ok (.val .nil) s
      | .callFun a args =>
          let f := funAt s a
          let envA := s.frames.length
          let s2 := defineParams envA (pushFrame s (some f.closure)) f.declaration.params args
          match interp n s2 (.block f.declaration.body envA) with
          | .ok _ s3 =>
              .ok (.val (if f.isInitializer then envGetAt s3 f.closure 0 ("this").data
                else .nil)) s3
          | .exc (.ret v) s3 =>
              .ok (.val (if f.isInitializer then envGetAt s3 f.closure 0 ("this").data
                else v)) s3
          | .exc e s3 => .exc e s3
          | .diverge => .diverge
      | .block stmts envA =>
          match interp n { s with environment := envA } (.stmtList stmts) with
          | .ok r s1 => .ok r { s1 with environment := s.environment }
          | .exc e s1 => .exc e { s1 with environment := s.environment }
          | .diverge => .diverge
      | .stmtList [] => .ok .unit s
      | .stmtList (st1 :: rest) =>
          (interp n s (.stmt st1)).bind fun _ s1 => interp n s1 (.stmtList rest)
      | .stmt (.block stmts) =>
          interp n (pushFrame s (some s.environment)) (.block stmts s.frames.length)
      | .stmt (.exprS e) =>
          (interp n s (.expr e)).bind fun _ s1 => .ok .unit s1
      | .stmt (.funS f) =>
          let s1 := allocFun s ⟨f, s.environment, false⟩
          .ok .unit (envDefine s1 s1.environment f.name.lexeme (.fn s.functions.length))
      | .stmt (.ifS c t e) =>
          (interp n s (.expr c)).bind fun rc s1 =>
          if isTruthy rc.toVal then
            (interp n s1 (.stmt t)).bind fun _ s2 => .ok .unit s2
          else
            match e with
            | some el => (interp n s1 (.stmt el)).bind fun _ s2 => .ok .unit s2
            | none => .ok .unit s1
      | .stmt (.print e) =>
          (interp n s (.expr e)).bind fun rv s1 =>
          .ok .unit { s1 with output := s1.output ++ [stringify s1 rv.toVal] }
      | .stmt (.returnS _ v) =>
          match v with
          | some e => (interp n s (.expr e)).bind fun rv s1 => .exc (.ret rv.toVal) s1
          | none => .exc (.ret .nil) s
      | .stmt (.varS name init) =>
          (match init with
           | some e => interp n s (.expr e)
           | none => .ok (.val .nil) s).bind fun rv s1 =>
          .ok .unit (envDefine s1 s1.environment name.lexeme rv.toVal)
      | .stmt (.whileS c b) =>
          (interp n s (.expr c)).bind fun rc s1 =>
          if isTruthy rc.toVal then
            (interp n s1 (.stmt b)).bind fun _ s2 => interp n s2 (.stmt (.whileS c b))
          else .ok .unit s1
      | .stmt (.classS name superE methods) =>
          (match superE with
           | some se =>
              (interp n s (.expr se)).bind fun rv s1 =>
              match rv.toVal with
              | .klass c => .ok (.val (.klass c)) s1
              | _ => .exc (.runtime (exprVarName se) "Superclass must be a class.") s1
           | none => .ok .unit s).bind fun rsup s1 =>
          execClassBody s1 name rsup methods

/-- `evaluate(expr)`. -/
def evalExpr (n : Nat) (s : LoxState) (e : Expr) : Outcome := interp n s (.expr e)

/-- `execute(stmt)`. -/
def execStmt (n : Nat) (s : LoxState) (st : Stmt) : Outcome := interp n s (.stmt st)

/-- `executeBlock(statements, environment)`. -/
def executeBlock (n : Nat) (s : LoxState) (stmts : List Stmt) (envA : Nat) : Outcome :=
  interp n s (.block stmts envA)

/-- `LoxFunction.call(interpreter, args)` on the function object at
`fnAddr`. -/
def callFunction (n : Nat) (s : LoxState) (fnAddr : Nat) (args : List Value) : Outcome :=
  interp n s (.callFun fnAddr args)

/-! ## Resolver (`src/Interpreter/Resolver.ts`, final snapshot)

The resolver threads a stack of lexical scopes (innermost first — the
source's array (push/pop at the end, `scopes[scopes.length - 1]` innermost)
is mirrored with the innermost scope at the head), the class/function type
trackers, and the reported static errors.  Instead of mutating
`interpreter.locals`, it returns the AST with the `resolved` slots of the
use-site nodes filled in (the side-table keyed by node identity, embedded
as node annotations).  `resolveLocal` records the number of scopes between
the use and the innermost scope that contains the name, exactly the
source's `scopes.length - 1 - i`. -/

inductive ClassType where
  | NONE | CLASS | SUBCLASS
deriving DecidableEq, Repr

inductive FunctionType where
  | NONE | FUNCTION | INITIALIZER | METHOD
deriving DecidableEq, Repr

structure RSt where
  scopes : List (List (List Char × Bool))
  currentClass : ClassType
  currentFunction : FunctionType
  errors : List ParseErr
deriving DecidableEq, Repr

/-- `returnTokenError(token, message)` → `reportError(line, column, "", msg)`. -/
def rErr (s : RSt) (tok : Token) (msg : String) : RSt :=
  { s with errors := s.errors ++ [⟨tok.line, tok.column, "", msg⟩] }

def rBeginScope (s : RSt) : RSt := { s with scopes := [] :: s.scopes }

def rEndScope (s : RSt) : RSt := { s with scopes := s.scopes.tail }

/-- Write `name ↦ flag` into the innermost scope. -/
def rSetHead (s : RSt) (n : List Char) (flag : Bool) : RSt :=
  match s.scopes with
  | [] => s
  | sc :: rest => { s with scopes := listSet sc n flag :: rest }

/-- `declare(name)`: no-op at global depth; re-declaration in the innermost
scope is a static error; mark the name "declared but not defined". -/
def rDeclare (s : RSt) (name : Token) : RSt :=
  match s.scopes with
  | [] => s
  | sc :: _ =>
      let s1 := if (listGet sc name.lexeme).isSome then
        rErr s name ("A variable '" ++ String.mk name.lexeme ++ "' already exists in this scope")
        else s
      rSetHead s1 name.lexeme false

/-- `define(name)`: mark the name initialized. -/
def rDefine (s : RSt) (name : Token) : RSt :=
  match s.scopes with
  | [] => s
  | _ :: _ => rSetHead s name.lexeme true

/-- `resolveLocal`'s scan: the distance to the innermost scope that `has`
the name, `none` when no scope does (the use will go to globals). -/
def resolveLocalScopes : List (List (List Char × Bool)) → List Char → Option Nat
  | [], _ => none
  | sc :: rest, n =>
      if (listGet sc n).isSome then some 0
      else (resolveLocalScopes rest n).map (fun d => d + 1)

/-- The parameter loop of `resolveFunction`: declare then define each. -/
def rParams (s : RSt) : List Token → RSt
  | [] => s
  | p :: rest => rParams (rDefine (rDeclare s p) p) rest

mutual

def rExpr (fuel : Nat) (s : RSt) : Expr → Expr × RSt :=
  match fuel with
  | 0 => fun e => (e, s)
  | fuel + 1 => fun e =>
      match e with
      | .assign name value _ =>
          let r := rExpr fuel s value
          (.assign name r.1 (resolveLocalScopes r.2.scopes name.lexeme), r.2)
      | .binary left op right =>
          let r1 := rExpr fuel s left
          let r2 := rExpr fuel r1.2 right
          (.binary r1.1 op r2.1, r2.2)
      | .call callee paren args =>
          let r1 := rExpr fuel s callee
          let r2 := rExprList fuel r1.2 args
          (.call r1.1 paren r2.1, r2.2)
      | .get obj name =>
          let r := rExpr fuel s obj
          (.get r.1 name, r.2)
      | .grouping inner =>
          let r := rExpr fuel s inner
          (.grouping r.1, r.2)
      | .literal v => (.literal v, s)
      | .logical left op right =>
          let r1 := rExpr fuel s left
          let r2 := rExpr fuel r1.2 right
          (.logical r1.1 op r2.1, r2.2)
      | .setE obj name value =>
          let r1 := rExpr fuel s value
          let r2 := rExpr fuel r1.2 obj
          (.setE r2.1 name r1.1, r2.2)
      | .superE kw method _ =>
          let s1 :=
            if s.currentClass = .NONE then
              rErr s kw "Can't use 'super' outside of a class"
            else if s.currentClass ≠ .SUBCLASS then
              rErr s kw "Can't use 'super' in a class with no superclass"
            else s
          (.superE kw method (resolveLocalScopes s1.scopes kw.lexeme), s1)
      | .thisE kw _ =>
          if s.currentClass = .NONE then
            (.thisE kw none, rErr s kw "Can't use 'this' outside of a class")
          else
            (.thisE kw (resolveLocalScopes s.scopes kw.lexeme), s)
      | .unary op right =>
          let r := rExpr fuel s right
          (.unary op r.1, r.2)
      | .variableE name _ =>
          let s1 :=
            if s.scopes ≠ [] ∧ listGet (s.scopes.headI) name.lexeme = some false then
              rErr s name "Can't read local variable in its own initializer"
            else s
          (.variableE name (resolveLocalScopes s1.scopes name.lexeme), s1)

def rExprList (fuel : Nat) (s : RSt) : List Expr → List Expr × RSt :=
  match fuel with
  | 0 => fun es => (es, s)
  | fuel + 1 => fun es =>
      match es with
      | [] => ([], s)
      | e :: rest =>
          let r1 := rExpr fuel s e
          let r2 := rExprList fuel r1.2 rest
          (r1.1 :: r2.1, r2.2)

def rStmt (fuel : Nat) (s : RSt) : Stmt → Stmt × RSt :=
  match fuel with
  | 0 => fun st => (st, s)
  | fuel + 1 => fun st =>
      match st with
      | .block stmts =>
          let r := rStmtList fuel (rBeginScope s) stmts
          (.block r.1, rEndScope r.2)
      | .classS name superE methods =>
          let enclosingClass := s.currentClass
          let s1 := { s with currentClass := .CLASS }
          let s2 := rDefine (rDeclare s1 name) name
          let r3 :=
            match superE with
            | some se =>
                let s3 :=
                  if name.lexeme = (exprVarName se).lexeme then
                    rErr s2 (exprVarName se) "A class can't inherit from itself"
                  else s2
                let s4 := { s3 with currentClass := .SUBCLASS }
                let r := rExpr fuel s4 se
                (some r.1, r.2)
            | none => (none, s2)
          let s5 :=
            match superE with
            | some _ => rSetHead (rBeginScope r3.2) ("super").data true
            | none => r3.2
          let s6 := rSetHead (rBeginScope s5) ("this").data true
          let r7 := rMethods fuel s6 methods
          let s8 := rEndScope r7.2
          let s9 :=
            match superE with
            | some _ => rEndScope s8
            | none => s8
          (.classS name r3.1 r7.1, { s9 with currentClass := enclosingClass })
      | .exprS e =>
          let r := rExpr fuel s e
          (.exprS r.1, r.2)
      | .funS f =>
          let s1 := rDefine (rDeclare s f.name) f.name
          let r := rFunction fuel s1 f .FUNCTION
          (.funS r.1, r.2)
      | .ifS c t e =>
          let r1 := rExpr fuel s c
          let r2 := rStmt fuel r1.2 t
          match e with
          | some el =>
              let r3 := rStmt fuel r2.2 el
              (.ifS r1.1 r2.1 (some r3.1), r3.2)
          | none => (.ifS r1.1 r2.1 none, r2.2)
      | .print e =>
          let r := rExpr fuel s e
          (.print r.1, r.2)
      | .returnS kw value =>
          let s1 :=
            if s.currentFunction = .NONE then
              rErr s kw "Can't return from top-level code"
            else s
          match value with
          | some v =>
              let s2 :=
                if s1.currentFunction = .INITIALIZER then
                  rErr s1 kw "Can't return a value from an initializer"
                else s1
              let r := rExpr fuel s2 v
              (.returnS kw (some r.1), r.2)
          | none => (.returnS kw none, s1)
      | .varS name init =>
          let s1 := rDeclare s name
          let r2 :=
            match init with
            | some e =>
                let r := rExpr fuel s1 e
                (some r.1, r.2)
            | none => (none, s1)
          (.varS name r2.1, rDefine r2.2 name)
      | .whileS c b =>
          let r1 := rExpr fuel s c
          let r2 := rStmt fuel r1.2 b
          (.whileS r1.1 r2.1, r2.2)

def rStmtList (fuel : Nat) (s : RSt) : List Stmt → List Stmt × RSt :=
  match fuel with
  | 0 => fun l => (l, s)
  | fuel + 1 => fun l =>
      match l with
      | [] => ([], s)
      | st :: rest =>
          let r1 := rStmt fuel s st
          let r2 := rStmtList fuel r1.2 rest
          (r1.1 :: r2.1, r2.2)

/-- The `stmt.methods.forEach` of the resolver's `visitClassStmt`: each
method resolves as `INITIALIZER` when literally named `init`, `METHOD`
otherwise. -/
def rMethods (fuel : Nat) (s : RSt) : List FunDecl → List FunDecl × RSt :=
  match fuel with
  | 0 => fun ms => (ms, s)
  | fuel + 1 => fun ms =>
      match ms with
      | [] => ([], s)
      | m :: rest =>
          let ty := if m.name.lexeme = ("init").data then FunctionType.INITIALIZER
            else FunctionType.METHOD
          let r1 := rFunction fuel s m ty
          let r2 := rMethods fuel r1.2 rest
          (r1.1 :: r2.1, r2.2)

/-- `resolveFunction(fun, type)`. -/
def rFunction (fuel : Nat) (s : RSt) (f : FunDecl) (ty : FunctionType) : FunDecl × RSt :=
  match fuel with
  | 0 => (f, s)
  | fuel + 1 =>
      let enclosingFunction := s.currentFunction
      let s1 := rParams (rBeginScope { s with currentFunction := ty }) f.params
      let r := rStmtList fuel s1 f.body
      (.mk f.name f.params r.1,
        { rEndScope r.2 with currentFunction := enclosingFunction })

end

/-! ### Claim theorems about the evaluator -/

/-- The `+` token used by the C3 counterexample. -/
def plusToken : Token := ⟨.PLUS, ("+").data, .nil, 1, 1⟩

/-- C3 counterexample: in the final interpreter snapshot, `"a" + 1` (a
string plus a number) raises the runtime error `Operands must be two
numbers or two strings.` — it does not concatenate the operands' string
representations as the claim asserts for "either operand a string". -/
theorem c3_counterexample :
    evalExpr 2 initialState
        (.binary (.literal (.str ("a").data)) plusToken (.literal (.num 1))) =
      .exc (.runtime plusToken "Operands must be two numbers or two strings.") initialState :=
  rfl

/-- The result the strict `+` produces from two operand values: sum of two
numbers, concatenation of two strings, runtime error otherwise. -/
def plusResult (op : Token) (v1 v2 : Value) (s2 : LoxState) : Outcome :=
  match v1, v2 with
  | .num a, .num b => .ok (.val (.num (a + b))) s2
  | .str a, .str b => .ok (.val (.str (a ++ b))) s2
  | _, _ => .exc (.runtime op "Operands must be two numbers or two strings.") s2

/-- C3 (amended): for every evaluation of a binary `+` whose operands
evaluate to `v1` and `v2`: two numbers yield their sum, two strings yield
their concatenation, and every other combination (including a string mixed
with a number) raises `Operands must be two numbers or two strings.`,
leaving the state as it was after the operand evaluations. -/
theorem c3_plus_strict (n : Nat) (s s1 s2 : LoxState) (e1 e2 : Expr) (op : Token)
    (v1 v2 : Value)
    (h1 : evalExpr n s e1 = .ok (.val v1) s1)
    (h2 : evalExpr n s1 e2 = .ok (.val v2) s2)
    (hop : op.type = TokenType.PLUS) :
    evalExpr (n + 1) s (.binary e1 op e2) = plusResult op v1 v2 s2 := by
  unfold evalExpr at h1 h2 ⊢
  simp only [interp, h1, h2, Outcome.bind, binaryOp, hop, Res.toVal, plusResult]

/-- Witness for C3 at `2 + 3`. -/
theorem c3_plus_strict_witness :
    evalExpr 1 initialState (.literal (.num 2)) = .ok (.val (.num 2)) initialState ∧
    evalExpr 1 initialState (.literal (.num 3)) = .ok (.val (.num 3)) initialState ∧
    evalExpr 2 initialState
        (.binary (.literal (.num 2)) plusToken (.literal (.num 3))) =
      .ok (.val (.num 5)) initialState :=
  ⟨rfl, rfl, by
    rw [c3_plus_strict 1 initialState initialState initialState
      (.literal (.num 2)) (.literal (.num 3)) plusToken (.num 2) (.num 3) rfl rfl rfl]
    simp only [plusResult]
    norm_num⟩

/-- The `/` token used by the C5 witness. -/
def slashToken : Token := ⟨.SLASH, ("/").data, .nil, 1, 1⟩

/-- The result the `/` case produces from two operand values: quotient of
two numbers when the divisor is non-zero, `Cannot divide by zero.` when it
is zero, `Operands must be numbers.` otherwise. -/
def slashResult (op : Token) (v1 v2 : Value) (s2 : LoxState) : Outcome :=
  match v1, v2 with
  | .num a, .num b =>
      if b ≠ 0 then .ok (.val (.num (a / b))) s2
      else .exc (.runtime op "Cannot divide by zero.") s2
  | _, _ => .exc (.runtime op "Operands must be numbers.") s2

/-- C5: for every evaluation of a binary `/` whose operands evaluate to
`v1` and `v2`: when both are numbers the result is the quotient if the
right operand is non-zero and the runtime error `Cannot divide by zero.`
exactly when it is zero; when either operand is not a number, the runtime
error `Operands must be numbers.` is raised instead and no quotient is
produced. -/
theorem c5_division_by_zero (n : Nat) (s s1 s2 : LoxState) (e1 e2 : Expr) (op : Token)
    (v1 v2 : Value)
    (h1 : evalExpr n s e1 = .ok (.val v1) s1)
    (h2 : evalExpr n s1 e2 = .ok (.val v2) s2)
    (hop : op.type = TokenType.SLASH) :
    evalExpr (n + 1) s (.binary e1 op e2) = slashResult op v1 v2 s2 := by
  unfold evalExpr at h1 h2 ⊢
  simp only [interp, h1, h2, Outcome.bind, binaryOp, hop, Res.toVal, slashResult]

/-- Witness for C5 at `6 / 3` and `1 / 0`. -/
theorem c5_division_by_zero_witness :
    evalExpr 1 initialState (.literal (.num 6)) = .ok (.val (.num 6)) initialState ∧
    evalExpr 2 initialState
        (.binary (.literal (.num 6)) slashToken (.literal (.num 3))) =
      .ok (.val (.num 2)) initialState ∧
    evalExpr 2 initialState
        (.binary (.literal (.num 1)) slashToken (.literal (.num 0))) =
      .exc (.runtime slashToken "Cannot divide by zero.") initialState := by
  refine ⟨rfl, ?_, ?_⟩
  · rw [c5_division_by_zero 1 initialState initialState initialState
      (.literal (.num 6)) (.literal (.num 3)) slashToken (.num 6) (.num 3) rfl rfl rfl]
    simp only [slashResult]
    norm_num
  · rw [c5_division_by_zero 1 initialState initialState initialState
      (.literal (.num 1)) (.literal (.num 0)) slashToken (.num 1) (.num 0) rfl rfl rfl]
    simp only [slashResult]
    norm_num

/-- Is the value a `LoxInstance`? -/
def isInstanceV : Value → Bool
  | .inst _ => true
  | _ => false

/-- C9: evaluating `obj.name = value` evaluates the object subexpression
first; when its result is not an instance, the runtime error `Only
instances have fields.` is raised with the state exactly as the object
evaluation left it — for every value subexpression, which is therefore
never evaluated and contributes no side effects. -/
theorem c9_set_checks_before_value (n : Nat) (s s1 : LoxState) (obj : Expr)
    (name : Token) (v : Value)
    (h1 : evalExpr n s obj = .ok (.val v) s1)
    (hv : isInstanceV v = false) :
    ∀ valueE : Expr,
      evalExpr (n + 1) s (.setE obj name valueE) =
        .exc (.runtime name "Only instances have fields.") s1 := by
  intro valueE
  unfold evalExpr at h1 ⊢
  simp only [interp, h1, Outcome.bind, Res.toVal]
  cases v <;> simp [isInstanceV] at hv ⊢

/-- Witness for C9: `(1).x = anything` errors without touching the value. -/
theorem c9_set_checks_before_value_witness :
    evalExpr 1 initialState (.literal (.num 1)) = .ok (.val (.num 1)) initialState ∧
    isInstanceV (.num 1) = false ∧
    evalExpr 2 initialState
        (.setE (.literal (.num 1)) plusToken (.literal (.num 99))) =
      .exc (.runtime plusToken "Only instances have fields.") initialState :=
  ⟨rfl, rfl, c9_set_checks_before_value 1 initialState initialState
    (.literal (.num 1)) plusToken (.num 1) rfl rfl (.literal (.num 99))⟩

/-- C8: `LoxFunction.call` — after binding parameters in a fresh
environment enclosing the function's closure and executing the body as a
block: a non-initializer returns the value carried by a return-unwind, or
`nil` when the body completes without returning; an initializer (a method
literally named `init`) returns the value bound to `this` at distance 0 in
its closure, both on normal completion and on return-unwind; a runtime
error keeps unwinding. -/
theorem c8_function_call_result (n : Nat) (s : LoxState) (a : Nat) (args : List Value)
    (out : Outcome)
    (hbody : executeBlock n
        (defineParams s.frames.length (pushFrame s (some (funAt s a).closure))
          (funAt s a).declaration.params args)
        (funAt s a).declaration.body s.frames.length = out) :
    callFunction (n + 1) s a args =
      match out with
      | .ok _ s3 =>
          .ok (.val (if (funAt s a).isInitializer
            then envGetAt s3 (funAt s a).closure 0 ("this").data else .nil)) s3
      | .exc (.ret v) s3 =>
          .ok (.val (if (funAt s a).isInitializer
            then envGetAt s3 (funAt s a).closure 0 ("this").data else v)) s3
      | .exc (.runtime t m) s3 => .exc (.runtime t m) s3
      | .diverge => .diverge := by
  unfold executeBlock at hbody
  unfold callFunction
  simp only [interp, hbody]
  cases out with
  | ok r s3 => rfl
  | exc e s3 => cases e <;> rfl
  | diverge => rfl

/-- A state holding one user function `fun f() { return 42; }` (closure =
globals), used by the C8 witness. -/
def c8State : LoxState :=
  allocFun initialState
    ⟨.mk ⟨.IDENTIFIER, ("f").data, .nil, 1, 1⟩ []
      [.returnS ⟨.RETURN, ("return").data, .nil, 1, 1⟩ (some (.literal (.num 42)))],
      0, false⟩

/-- Witness for C8: calling `f` returns the value 42 carried by the
return-unwind. -/
theorem c8_function_call_result_witness :
    (match callFunction 5 c8State 0 [] with
      | .ok (.val v) _ => v = .num 42
      | _ => False) := by
  rw [c8_function_call_result 4 c8State 0 [] _ rfl]
  rfl

/-! ### Environment restoration (claim C1) -/

/-- The environment-restoration property of an outcome relative to the
state before it: on every exit path that produces a state — normal
completion or exception unwind (return or runtime error) — the
current-environment reference equals what it was before; the out-of-fuel
outcome has no final state. -/
def envPres (s : LoxState) : Outcome → Prop
  | .ok _ s2 => s2.environment = s.environment
  | .exc _ s2 => s2.environment = s.environment
  | .diverge => True

@[simp] lemma pushFrame_environment (s : LoxState) (e : Option Nat) :
    (pushFrame s e).environment = s.environment := rfl
@[simp] lemma allocFun_environment (s : LoxState) (f : FunObj) :
    (allocFun s f).environment = s.environment := rfl
@[simp] lemma envDefine_environment (s : LoxState) (a : Nat) (n : List Char) (v : Value) :
    (envDefine s a n v).environment = s.environment := rfl
@[simp] lemma envAssignAt_environment (s : LoxState) (a d : Nat) (n : List Char) (v : Value) :
    (envAssignAt s a d n v).environment = s.environment := rfl
@[simp] lemma instanceSet_environment (s : LoxState) (a : Nat) (n : List Char) (v : Value) :
    (instanceSet s a n v).environment = s.environment := rfl
@[simp] lemma bindFunction_environment (s : LoxState) (f i : Nat) :
    ((bindFunction s f i).2).environment = s.environment := rfl

lemma defineParams_environment (envA : Nat) :
    ∀ (ps : List Token) (args : List Value) (s : LoxState),
      (defineParams envA s ps args).environment = s.environment := by
  intro ps
  induction ps with
  | nil => intro args s; cases args <;> rfl
  | cons p rest ih =>
    intro args s
    cases args with
    | nil => simpa [defineParams] using ih [] _
    | cons a rest2 => simpa [defineParams] using ih rest2 _

lemma createMethods_environment (envA : Nat) :
    ∀ (ms : List FunDecl) (acc : List (List Char × Nat)) (s : LoxState),
      (createMethods s envA ms acc).2.environment = s.environment := by
  intro ms
  induction ms with
  | nil => intro acc s; rfl
  | cons m rest ih => intro acc s; simpa [createMethods] using ih _ _

lemma createMethods_frames (envA : Nat) :
    ∀ (ms : List FunDecl) (acc : List (List Char × Nat)) (s : LoxState),
      (createMethods s envA ms acc).2.frames = s.frames := by
  intro ms
  induction ms with
  | nil => intro acc s; rfl
  | cons m rest ih => intro acc s; simpa [createMethods] using ih _ _

lemma envAssignAux_environment (s : LoxState) :
    ∀ (gas addr : Nat) (n : List Char) (v : Value) (s2 : LoxState),
      envAssignAux s gas addr n v = some s2 → s2.environment = s.environment := by
  intro gas
  induction gas with
  | zero => intro addr n v s2 h; simp [envAssignAux] at h
  | succ g ih =>
    intro addr n v s2 h
    simp only [envAssignAux] at h
    split at h
    · cases h; rfl
    · split at h
      · exact ih _ _ _ _ h
      · cases h

lemma envAssign_environment {s : LoxState} {addr : Nat} {n : List Char} {v : Value}
    {s2 : LoxState} (h : envAssign s addr n v = some s2) :
    s2.environment = s.environment :=
  envAssignAux_environment s _ _ _ _ _ h

lemma frameAt_envDefine_enclosing (s : LoxState) (a : Nat) (n : List Char) (v : Value)
    (b : Nat) : (frameAt (envDefine s a n v) b).enclosing = (frameAt s b).enclosing := by
  unfold frameAt envDefine
  by_cases hb : a = b
  · subst hb
    by_cases hl : a < s.frames.length
    · simp [List.getD, List.getElem?_set_self, hl, frameAt]
    · simp [List.getD, List.set_eq_of_length_le (by omega : s.frames.length ≤ a)]
  · simp [List.getD, List.getElem?_set_ne hb]

lemma frameAt_pushFrame_length (s : LoxState) (e : Option Nat) :
    frameAt (pushFrame s e) s.frames.length = ⟨[], e⟩ := by
  unfold frameAt pushFrame
  simp [List.getD, List.getElem?_concat_length]

lemma envPres_mono {s s1 : LoxState} (h : s1.environment = s.environment) :
    ∀ {o : Outcome}, envPres s1 o → envPres s o := by
  intro o
  cases o with
  | ok r s2 => intro h2; exact h2.trans h
  | exc e s2 => intro h2; exact h2.trans h
  | diverge => intro _; trivial

lemma envPres_bind {s : LoxState} {o : Outcome} {f : Res → LoxState → Outcome}
    (h1 : envPres s o)
    (h2 : ∀ r s1, s1.environment = s.environment → envPres s1 (f r s1)) :
    envPres s (o.bind f) := by
  cases o with
  | ok r s1 => exact envPres_mono h1 (h2 r s1 h1)
  | exc e s1 => exact h1
  | diverge => trivial

lemma binaryOp_env (op : Token) (l r : Value) (s : LoxState) :
    envPres s (binaryOp op l r s) := by
  unfold binaryOp
  repeat' split
  all_goals simp [envPres]

lemma lookUpVariable_env (s : LoxState) (name : Token) (res : Option Nat) :
    envPres s (lookUpVariable s name res) := by
  unfold lookUpVariable
  repeat' split
  all_goals simp [envPres]

lemma instanceGet_env (s : LoxState) (a : Nat) (name : Token) :
    envPres s (instanceGet s a name) := by
  unfold instanceGet
  repeat' split
  all_goals simp [envPres]



lemma classAssignResult_env (s7 : LoxState) (name : Token) (classAddr : Nat) :
    envPres s7 (classAssignResult s7 name classAddr) := by
  unfold classAssignResult
  split
  · rename_i s8 hassign
    exact envAssign_environment hassign
  · simp [envPres]

lemma execClassBody_env (s1 : LoxState) (name : Token) (rsup : Res)
    (methods : List FunDecl) : envPres s1 (execClassBody s1 name rsup methods) := by
  unfold execClassBody
  split
  · rename_i c
    refine envPres_mono ?_ (classAssignResult_env _ _ _)
    set s2 := envDefine s1 s1.environment name.lexeme .nil with hs2
    set s4 := envDefine
      { pushFrame s2 (some s2.environment) with environment := s2.frames.length }
      s2.frames.length ("super").data (.klass c) with hs4
    set r := createMethods s4 s2.frames.length methods [] with hr
    have henv : r.2.environment = s2.frames.length := by
      rw [hr, createMethods_environment]
      rfl
    have hfr : r.2.frames = s4.frames := by
      rw [hr]
      exact createMethods_frames _ _ _ _
    show (frameAt _ _).enclosing.getD 0 = s1.environment
    have h1 : frameAt { r.2 with classes := r.2.classes ++
        [(⟨name.lexeme, some c, r.1⟩ : ClassObj)] } ({ r.2 with classes := r.2.classes ++
          [(⟨name.lexeme, some c, r.1⟩ : ClassObj)] }).environment =
        frameAt s4 s2.frames.length := by
      show r.2.frames.getD r.2.environment ⟨[], none⟩ = frameAt s4 s2.frames.length
      rw [hfr, henv]
      rfl
    rw [h1, hs4, frameAt_envDefine_enclosing]
    have h2 : frameAt { pushFrame s2 (some s2.environment) with
        environment := s2.frames.length } s2.frames.length =
        frameAt (pushFrame s2 (some s2.environment)) s2.frames.length := rfl
    rw [h2, frameAt_pushFrame_length]
    rfl
  · refine envPres_mono ?_ (classAssignResult_env _ _ _)
    show (createMethods _ _ _ _).2.environment = s1.environment
    rw [createMethods_environment]
    rfl

/-- Every interpreter request restores the current-environment reference on
every exit path that produces a state. -/
lemma interp_env : ∀ (n : Nat) (s : LoxState) (req : Req), envPres s (interp n s req) := by
  intro n
  induction n with
  | zero => intro s req; simp [interp, envPres]
  | succ n ih =>
    intro s req
    cases req with
    | expr e =>
      cases e with
      | literal p => simp [interp, envPres]
      | grouping inner =>
        simp only [interp]
        exact ih s (.expr inner)
      | unary op right =>
        simp only [interp]
        refine envPres_bind (ih s (.expr right)) ?_
        intro r s1 _
        repeat' split
        all_goals simp [envPres]
      | binary left op right =>
        simp only [interp]
        refine envPres_bind (ih s (.expr left)) ?_
        intro rl s1 _
        refine envPres_bind (ih s1 (.expr right)) ?_
        intro rr s2 _
        exact binaryOp_env op rl.toVal rr.toVal s2
      | logical left op right =>
        simp only [interp]
        refine envPres_bind (ih s (.expr left)) ?_
        intro rl s1 _
        repeat' split
        all_goals first
          | exact ih s1 (.expr right)
          | simp [envPres]
      | variableE name res =>
        simp only [interp]
        exact lookUpVariable_env s name res
      | thisE kw res =>
        simp only [interp]
        exact lookUpVariable_env s kw res
      | assign name valueE res =>
        simp only [interp]
        refine envPres_bind (ih s (.expr valueE)) ?_
        intro rv s1 _
        repeat' split
        all_goals first
          | (rename_i s2 hassign
             exact envAssign_environment hassign)
          | simp [envPres]
      | get obj name =>
        simp only [interp]
        refine envPres_bind (ih s (.expr obj)) ?_
        intro ro s1 _
        split
        · exact instanceGet_env s1 _ name
        · simp [envPres]
      | setE obj name valueE =>
        simp only [interp]
        refine envPres_bind (ih s (.expr obj)) ?_
        intro ro s1 _
        split
        · refine envPres_bind (ih s1 (.expr valueE)) ?_
          intro rv s2 _
          simp [envPres]
        · simp [envPres]
      | superE kw method res =>
        simp only [interp]
        repeat' split
        all_goals simp [envPres]
      | call callee paren argEs =>
        simp only [interp]
        refine envPres_bind (ih s (.expr callee)) ?_
        intro rc s1 _
        refine envPres_bind (ih s1 (.args argEs)) ?_
        intro ra s2 _
        exact ih s2 (.callValue rc.toVal ra.toVals paren)
    | args es =>
      cases es with
      | nil => simp [interp, envPres]
      | cons e rest =>
        simp only [interp]
        refine envPres_bind (ih s (.expr e)) ?_
        intro rv s1 _
        refine envPres_bind (ih s1 (.args rest)) ?_
        intro rr s2 _
        simp [envPres]
    | callValue callee args paren =>
      simp only [interp]
      split
      · simp [envPres]
      · split
        · simp [envPres]
        · split
          · exact ih s (.callFun _ args)
          · simp [envPres]
          · split
            · simp [envPres]
            · split
              · refine envPres_bind (envPres_mono (by simp) (ih _ (.callFun _ args))) ?_
                intro r s3 _
                simp [envPres]
              · simp [envPres]
          · simp [envPres]
    | callFun a args =>
      simp only [interp]
      have hbody := ih (defineParams s.frames.length (pushFrame s (some (funAt s a).closure))
        (funAt s a).declaration.params args) (.block (funAt s a).declaration.body
          s.frames.length)
      have henv : (defineParams s.frames.length (pushFrame s (some (funAt s a).closure))
          (funAt s a).declaration.params args).environment = s.environment := by
        rw [defineParams_environment]
        rfl
      split
      · rename_i s3 heq
        rw [heq] at hbody
        exact hbody.trans henv
      · rename_i v s3 heq
        rw [heq] at hbody
        exact hbody.trans henv
      · rename_i e s3 hne heq
        rw [heq] at hbody
        exact hbody.trans henv
      · trivial
    | block stmts envA =>
      simp only [interp]
      split
      all_goals simp [envPres]
    | stmtList l =>
      cases l with
      | nil => simp [interp, envPres]
      | cons st1 rest =>
        simp only [interp]
        refine envPres_bind (ih s (.stmt st1)) ?_
        intro r s1 _
        exact ih s1 (.stmtList rest)
    | stmt st =>
      cases st with
      | block stmts =>
        simp only [interp]
        exact envPres_mono
          (show (pushFrame s (some s.environment)).environment = s.environment by simp)
          (ih (pushFrame s (some s.environment)) (.block stmts s.frames.length))
      | exprS e =>
        simp only [interp]
        refine envPres_bind (ih s (.expr e)) ?_
        intro r s1 _
        simp [envPres]
      | funS f =>
        simp only [interp]
        simp [envPres]
      | ifS c t e =>
        simp only [interp]
        refine envPres_bind (ih s (.expr c)) ?_
        intro rc s1 _
        split
        · refine envPres_bind (ih s1 (.stmt t)) ?_
          intro r s2 _
          simp [envPres]
        · split
          · refine envPres_bind (ih s1 (.stmt _)) ?_
            intro r s2 _
            simp [envPres]
          · simp [envPres]
      | print e =>
        simp only [interp]
        refine envPres_bind (ih s (.expr e)) ?_
        intro rv s1 _
        simp [envPres]
      | returnS kw v =>
        simp only [interp]
        split
        · refine envPres_bind (ih s (.expr _)) ?_
          intro rv s1 _
          simp [envPres]
        · simp [envPres]
      | varS name init =>
        simp only [interp]
        refine envPres_bind ?_ ?_
        · split
          · exact ih s (.expr _)
          · simp [envPres]
        · intro rv s1 _
          simp [envPres]
      | whileS c b =>
        simp only [interp]
        refine envPres_bind (ih s (.expr c)) ?_
        intro rc s1 _
        split
        · refine envPres_bind (ih s1 (.stmt b)) ?_
          intro r s2 _
          exact ih s2 (.stmt (.whileS c b))
        · simp [envPres]
      | classS name superE methods =>
        simp only [interp]
        refine envPres_bind ?_ ?_
        · split
          · refine envPres_bind (ih s (.expr _)) ?_
            intro rv s1 _
            split
            · simp [envPres]
            · simp [envPres]
          · simp [envPres]
        · intro rsup s1 _
          exact execClassBody_env s1 name rsup methods

/-- C1: after any statement executed by the evaluator completes — normally,
by return-unwind, or by runtime-error-unwind — the evaluator's
current-environment reference equals what it was immediately before the
statement began; in particular `executeBlock` (and hence every block and
every class declaration with a superclass, which execute through the same
dispatcher) restores the environment pointer on every exit path. -/
theorem c1_environment_restoration (n : Nat) (s : LoxState) (st : Stmt)
    (stmts : List Stmt) (envA : Nat) :
    envPres s (execStmt n s st) ∧ envPres s (executeBlock n s stmts envA) :=
  ⟨interp_env n s (.stmt st), interp_env n s (.block stmts envA)⟩

/-! ### C2: resolved (scoped) variable access -/

/-- Source of the C2 counterexample: a variable whose initializer assigns
to the variable itself. -/
def c2src : List Char := ("\x7b var a = (a = 2); \x7d").data

/-- The `var` statement's name token (`a` at column 7). -/
def c2name : Token := ⟨.IDENTIFIER, ("a").data, .nil, 1, 7⟩

/-- The assignment target's token (`a` at column 12). -/
def c2assignName : Token := ⟨.IDENTIFIER, ("a").data, .nil, 1, 12⟩

/-- The literal `2` exactly as the scanner produces it (`parseFloat` on the
lexeme `2`); `c2two` below identifies it with the rational `2`. -/
def c2lit : Prim := .num (parseDec (("2").data))

/-- The initializer's assignment as the parser emits it (unresolved). -/
def c2assignParsed : Expr := .assign c2assignName (.literal c2lit) none

/-- The same assignment as the resolver annotates it: distance 0. -/
def c2assignE : Expr := .assign c2assignName (.literal c2lit) (some 0)

/-- The parsed program `\x7b var a = (a = 2); \x7d` (one block). -/
def c2progParsed : Stmt := .block [.varS c2name (some (.grouping c2assignParsed))]

/-- The resolved `var` statement. -/
def c2varStmt : Stmt := .varS c2name (some (.grouping c2assignE))

/-- The resolved program. -/
def c2prog : Stmt := .block [c2varStmt]

/-- The state in which the interpreter evaluates the block body (and hence
the initializer): a fresh empty frame (address 1, enclosing the globals)
has been pushed and made current. -/
def c2s1 : LoxState := { pushFrame initialState (some 0) with environment := 1 }

/-- The `.block` request's environment-restore wrapper (the `finally` of
`executeBlock`). -/
def restoreEnv (a : Nat) : Outcome → Outcome
  | .ok r s1 => .ok r { s1 with environment := a }
  | .exc e s1 => .exc e { s1 with environment := a }
  | .diverge => .diverge

/-- The scanned literal of the C2 program is the number 2. -/
lemma c2two : parseDec (("2").data) = (2 : Rat) := by
  have h : parseDec (("2").data)
      = ((2 : Nat) : Rat) + ((0 : Nat) : Rat) / ((10 : Rat) ^ (0 : Nat)) := rfl
  rw [h]; norm_num

/-- C2 counterexample: the claim fails for `Assign`.  In
`\x7b var a = (a = 2); \x7d` the resolver records distance 0 for the inner
assignment (and reports no error), yet when the interpreter evaluates that
assignment — in the state `c2s1` it passes to the initializer, as the
displayed factoring of the run shows — walking exactly 0 enclosing links
from the current environment lands in the fresh block frame, whose local
map does *not* define `a` at that moment (`var a` defines it only after
the initializer completes).  The write nevertheless succeeds, because
`Map.set` creates the binding, and the whole program runs without error. -/
theorem c2_counterexample :
    (scanTokens c2src).errors = []
  ∧ pParse (scanTokens c2src).tokens 100 ⟨0, []⟩ = .ok [c2progParsed] ⟨11, []⟩
  ∧ rStmtList 100 ⟨[], .NONE, .NONE, []⟩ [c2progParsed]
      = ([c2prog], ⟨[], .NONE, .NONE, []⟩)
  ∧ execStmt 20 initialState c2prog
      = restoreEnv 0 (interp 18 c2s1 (.stmtList [c2varStmt]))
  ∧ interp 18 c2s1 (.stmtList [c2varStmt])
      = Outcome.bind
          (Outcome.bind (evalExpr 15 c2s1 c2assignE)
            (fun rv s1 => .ok .unit (envDefine s1 s1.environment c2name.lexeme rv.toVal)))
          (fun _ s1 => interp 17 s1 (.stmtList []))
  ∧ listGet (frameAt c2s1 (ancestorAddr c2s1 0 c2s1.environment)).values ("a").data
      = none
  ∧ evalExpr 15 c2s1 c2assignE
      = .ok (.val (.num (parseDec (("2").data))))
          (envAssignAt c2s1 c2s1.environment 0 ("a").data (.num (parseDec (("2").data))))
  ∧ (∃ sf, execStmt 20 initialState c2prog = .ok .unit sf) :=
  ⟨rfl, rfl, rfl, rfl, rfl, rfl, rfl, ⟨_, rfl⟩⟩

/-- C2 (amended): for a `Variable`, `This`, `Super`, or `Assign` expression
with recorded distance `d`, evaluation walks exactly `d` enclosing links
from the current environment and accesses that frame's local map — reads
return whatever the map holds for the name at that moment (`Super` also
reads `this` at `d - 1`), and writes set the name in that map, creating the
binding when the frame does not yet define it; when no distance is
recorded, the name is read or written (and possibly reported undefined)
against the globals environment. -/
theorem c2_resolved_access (n : Nat) (s s1 : LoxState) (name kw sk mth : Token)
    (valueE : Expr) (d : Nat) (rv : Res)
    (hv : evalExpr n s valueE = .ok rv s1) :
    evalExpr (n + 1) s (.variableE name (some d))
      = .ok (.val (envGetAt s s.environment d name.lexeme)) s
  ∧ evalExpr (n + 1) s (.thisE kw (some d))
      = .ok (.val (envGetAt s s.environment d kw.lexeme)) s
  ∧ evalExpr (n + 1) s (.superE sk mth (some d))
      = (match envGetAt s s.environment d ("super").data with
         | .klass c =>
             match envGetAt s s.environment (d - 1) ("this").data with
             | .inst o =>
                 match findMethod s c mth.lexeme with
                 | some m => .ok (.val (bindFunction s m o).1) (bindFunction s m o).2
                 | none =>
                     .exc (.runtime mth
                       ("Undefined property '" ++ String.mk mth.lexeme ++ "'.")) s
             | _ => .exc (.runtime sk "super: invalid this binding") s
         | _ => .exc (.runtime sk "super: invalid super binding") s)
  ∧ evalExpr (n + 1) s (.assign name valueE (some d))
      = .ok (.val rv.toVal) (envAssignAt s1 s1.environment d name.lexeme rv.toVal)
  ∧ evalExpr (n + 1) s (.variableE name none)
      = (match envGet s s.globals name.lexeme with
         | some v => .ok (.val v) s
         | none =>
             .exc (.runtime name
               ("Undefined variable '" ++ String.mk name.lexeme ++ "'")) s)
  ∧ evalExpr (n + 1) s (.assign name valueE none)
      = (match envAssign s1 s1.globals name.lexeme rv.toVal with
         | some s2 => .ok (.val rv.toVal) s2
         | none =>
             .exc (.runtime name
               ("Undefined variable '" ++ String.mk name.lexeme ++ "'")) s1) := by
  refine ⟨rfl, rfl, rfl, ?_, rfl, ?_⟩ <;>
    simp only [evalExpr] at hv ⊢ <;> simp only [interp, hv, Outcome.bind]

/-- Witness for `c2_resolved_access` at `n = 1`, the initial state, the
token `a`, value expression `2`, and distance 0. -/
theorem c2_resolved_access_witness :
    evalExpr 1 initialState (.literal (.num 2)) = .ok (.val (.num 2)) initialState
  ∧ (evalExpr (1 + 1) initialState (.variableE c2name (some 0))
      = .ok (.val (envGetAt initialState initialState.environment 0 c2name.lexeme))
          initialState
  ∧ evalExpr (1 + 1) initialState (.thisE c2name (some 0))
      = .ok (.val (envGetAt initialState initialState.environment 0 c2name.lexeme))
          initialState
  ∧ evalExpr (1 + 1) initialState (.superE c2name c2name (some 0))
      = (match envGetAt initialState initialState.environment 0 ("super").data with
         | .klass c =>
             match envGetAt initialState initialState.environment (0 - 1) ("this").data with
             | .inst o =>
                 match findMethod initialState c c2name.lexeme with
                 | some m =>
                     .ok (.val (bindFunction initialState m o).1)
                       (bindFunction initialState m o).2
                 | none =>
                     .exc (.runtime c2name
                       ("Undefined property '" ++ String.mk c2name.lexeme ++ "'."))
                       initialState
             | _ => .exc (.runtime c2name "super: invalid this binding") initialState
         | _ => .exc (.runtime c2name "super: invalid super binding") initialState)
  ∧ evalExpr (1 + 1) initialState (.assign c2name (.literal (.num 2)) (some 0))
      = .ok (.val (Res.val (.num 2)).toVal)
          (envAssignAt initialState initialState.environment 0 c2name.lexeme
            (Res.val (.num 2)).toVal)
  ∧ evalExpr (1 + 1) initialState (.variableE c2name none)
      = (match envGet initialState initialState.globals c2name.lexeme with
         | some v => .ok (.val v) initialState
         | none =>
             .exc (.runtime c2name
               ("Undefined variable '" ++ String.mk c2name.lexeme ++ "'")) initialState)
  ∧ evalExpr (1 + 1) initialState (.assign c2name (.literal (.num 2)) none)
      = (match envAssign initialState initialState.globals c2name.lexeme
              (Res.val (.num 2)).toVal with
         | some s2 => .ok (.val (Res.val (.num 2)).toVal) s2
         | none =>
             .exc (.runtime c2name
               ("Undefined variable '" ++ String.mk c2name.lexeme ++ "'"))
               initialState)) :=
  ⟨rfl, c2_resolved_access 1 initialState initialState c2name c2name c2name c2name
    (.literal (.num 2)) 0 (.val (.num 2)) rfl⟩
